import Mathlib

set_option maxRecDepth 100000

/-!
# Verification of the bond cashflow / yield engine and portfolio helpers

Shallow embedding of the core of the `bond_project` repository:

* `src/cashflow_model/conv_bond_model.py` (`CashflowModel`: schedule builder,
  accrued interest, dirty/clean price from yield, yield root finder);
* `src/jcb_bond_project/utils/jcb_calendar.py` (`BusinessDayCalendar`,
  `adjust_to_business_day`);
* `src/jcb_bond_project/portfolio/portfolio_optimiser.py`
  (`solve_portfolio_weights`) and
  `src/jcb_bond_project/portfolio/portfolio_builders.py`
  (`create_unified_timeline`, diagnostics of `build_portfolio`).

Embedding conventions:

* Python `datetime.date` becomes the `Date` structure below, compared
  lexicographically on (year, month, day) exactly as Python compares dates.
  `dateutil.relativedelta(months = m)` is `Date.addMonths` / `Date.subMonths`
  (month arithmetic with day-of-month clamping, exactly dateutil's rule).
  `timedelta(days = n)` steps days one at a time through the Gregorian
  calendar.  `date.weekday()` (Monday = 0) is computed from the rata-die
  day number.
* Python `float` values are embedded as exact rationals `ℚ`; the floating
  `**` operator is an explicit function parameter `pw : ℚ → ℚ → ℚ` of every
  pricing function (the source only ever combines it with `+`, `*`, `-`,
  `/`, which are exact here).  For concrete evaluations we instantiate `pw`
  with `powInt`, which is the mathematical value of `**` whenever the
  exponent is an integer (in every concrete run below it is).
* Python exceptions become `Except String`; the raised message strings are
  kept verbatim.
* Unbounded `while` loops over dates (business-day rolling) take explicit
  fuel; the schedule builder's backward generation loop is proved
  terminating outright.
-/

/-! ## Dates -/

/-- A Gregorian calendar date, as Python's `datetime.date`
(`year`, `month` in 1..12, `day` in 1..31 for valid dates). -/
structure Date where
  year : Int
  month : Nat
  day : Nat
deriving DecidableEq, Repr

namespace Date

/-- Python compares `date` objects lexicographically on (year, month, day). -/
def lt (a b : Date) : Prop :=
  a.year < b.year ∨ (a.year = b.year ∧
    (a.month < b.month ∨ (a.month = b.month ∧ a.day < b.day)))

instance : LT Date := ⟨Date.lt⟩

instance decLt (a b : Date) : Decidable (a < b) := by
  show Decidable (Date.lt a b)
  unfold Date.lt
  infer_instance

theorem lt_def (a b : Date) : a < b ↔
    (a.year < b.year ∨ (a.year = b.year ∧
      (a.month < b.month ∨ (a.month = b.month ∧ a.day < b.day)))) := Iff.rfl

def le (a b : Date) : Prop := a < b ∨ a = b

instance : LE Date := ⟨Date.le⟩

theorem le_def (a b : Date) : a ≤ b ↔ (a < b ∨ a = b) := Iff.rfl

instance decLe (a b : Date) : Decidable (a ≤ b) := by
  rw [le_def]; infer_instance

theorem lt_irrefl' (a : Date) : ¬ a < a := by
  rw [lt_def]; omega

theorem lt_trans' {a b c : Date} : a < b → b < c → a < c := by
  rw [lt_def, lt_def, lt_def]
  rcases a with ⟨ya, ma, da⟩
  rcases b with ⟨yb, mb, db⟩
  rcases c with ⟨yc, mc, dc⟩
  simp only
  omega

theorem lt_total' (a b : Date) : a < b ∨ a = b ∨ b < a := by
  rw [lt_def, lt_def]
  rcases a with ⟨ya, ma, da⟩
  rcases b with ⟨yb, mb, db⟩
  simp only [Date.mk.injEq]
  omega

theorem le_refl' (a : Date) : a ≤ a := Or.inr rfl

theorem le_trans' {a b c : Date} : a ≤ b → b ≤ c → a ≤ c := by
  intro hab hbc
  rcases hab with h | rfl
  · rcases hbc with h' | rfl
    · exact Or.inl (lt_trans' h h')
    · exact Or.inl h
  · exact hbc

theorem le_antisymm' {a b : Date} : a ≤ b → b ≤ a → a = b := by
  intro hab hba
  rcases hab with h | rfl
  · rcases hba with h' | rfl
    · exact absurd (lt_trans' h h') (lt_irrefl' a)
    · rfl
  · rfl

theorem le_total' (a b : Date) : a ≤ b ∨ b ≤ a := by
  rcases lt_total' a b with h | rfl | h
  · exact Or.inl (Or.inl h)
  · exact Or.inl (le_refl' a)
  · exact Or.inr (Or.inl h)

theorem lt_iff_le_not_le' (a b : Date) : a < b ↔ a ≤ b ∧ ¬ b ≤ a := by
  constructor
  · intro h
    refine ⟨Or.inl h, ?_⟩
    intro hba
    rcases hba with h' | h'
    · exact absurd (lt_trans' h h') (lt_irrefl' _)
    · subst h'
      exact absurd h (lt_irrefl' _)
  · rintro ⟨hab, hnba⟩
    rcases hab with h | h
    · exact h
    · subst h
      exact absurd (le_refl' _) hnba

instance : LinearOrder Date where
  le_refl := le_refl'
  le_trans := fun _ _ _ => le_trans'
  le_antisymm := fun _ _ => le_antisymm'
  le_total := le_total'
  lt_iff_le_not_le := lt_iff_le_not_le'
  decidableLE := decLe
  decidableEq := inferInstance
  decidableLT := decLt

theorem not_lt_of_lt {a b : Date} (h : a < b) : ¬ b < a := by
  intro h'
  exact absurd (lt_trans' h h') (lt_irrefl' a)

/-- Leap year rule of the Gregorian calendar. -/
def isLeap (y : Int) : Bool :=
  y.emod 4 = 0 && (y.emod 100 ≠ 0 || y.emod 400 = 0)

/-- Number of days in a month. -/
def daysInMonth (y : Int) (m : Nat) : Nat :=
  if m = 2 then (if isLeap y then 29 else 28)
  else if m = 4 ∨ m = 6 ∨ m = 9 ∨ m = 11 then 30
  else 31

/-- `year * 12 + (month - 1)`: linearises the (year, month) pair. -/
def monthIndex (d : Date) : Int := d.year * 12 + (d.month : Int) - 1

/-- `d + relativedelta(months = m)` for an arbitrary integer month shift:
dateutil normalises the month into 1..12 carrying into the year and clamps
the day to the length of the target month. -/
def addMonthsInt (d : Date) (m : Int) : Date :=
  let t : Int := d.year * 12 + ((d.month : Int) - 1) + m
  let y : Int := t.ediv 12
  let mo : Nat := (t.emod 12).toNat + 1
  { year := y, month := mo, day := min d.day (daysInMonth y mo) }

/-- `d + relativedelta(months = m)`. -/
def addMonths (d : Date) (m : Nat) : Date := addMonthsInt d (m : Int)

/-- `d - relativedelta(months = m)`. -/
def subMonths (d : Date) (m : Nat) : Date := addMonthsInt d (-(m : Int))

theorem monthIndex_addMonthsInt (d : Date) (m : Int) :
    monthIndex (addMonthsInt d m) = monthIndex d + m := by
  unfold monthIndex addMonthsInt
  simp only
  have hnn : 0 ≤ (d.year * 12 + ((d.month : Int) - 1) + m).emod 12 :=
    Int.emod_nonneg _ (by norm_num)
  have hdiv : 12 * (d.year * 12 + ((d.month : Int) - 1) + m).ediv 12 +
      (d.year * 12 + ((d.month : Int) - 1) + m).emod 12 =
      d.year * 12 + ((d.month : Int) - 1) + m :=
    Int.ediv_add_emod _ 12
  push_cast [Int.toNat_of_nonneg hnn]
  omega

/-- The month of an `addMonthsInt` result is in 1..12. -/
theorem addMonthsInt_month_le (d : Date) (m : Int) :
    (addMonthsInt d m).month ≤ 12 := by
  unfold addMonthsInt
  simp only
  have h1 : (d.year * 12 + ((d.month : Int) - 1) + m).emod 12 < 12 :=
    Int.emod_lt_of_pos _ (by norm_num)
  omega

/-- Stepping months strictly down moves a calendar date (month in 1..12)
strictly down: the (year, month) pair strictly decreases, so the day is
irrelevant. -/
theorem subMonths_lt (d : Date) {m : Nat} (hm : 0 < m) (hd : d.month ≤ 12) :
    subMonths d m < d := by
  have hidx : monthIndex (subMonths d m) = monthIndex d - m := by
    unfold subMonths
    rw [monthIndex_addMonthsInt]
    ring
  have hmo : (subMonths d m).month ≤ 12 := addMonthsInt_month_le d _
  rw [lt_def]
  unfold monthIndex at hidx
  omega

/-- Day number of a date (days since 1970-01-01), the standard civil
calendar algorithm. -/
def toRataDie (d : Date) : Int :=
  let y : Int := if d.month ≤ 2 then d.year - 1 else d.year
  let era : Int := y.fdiv 400
  let yoe : Int := y - era * 400
  let mp : Int := ((d.month : Int) + 9).emod 12
  let doy : Int := (153 * mp + 2).ediv 5 + (d.day : Int) - 1
  let doe : Int := yoe * 365 + yoe.ediv 4 - yoe.ediv 100 + doy
  era * 146097 + doe - 719468

/-- `date.weekday()`: Monday = 0, ..., Sunday = 6.
1970-01-01 (rata die 0) was a Thursday (= 3). -/
def weekday (d : Date) : Nat := ((toRataDie d + 3).emod 7).toNat

/-- `(b - a).days` for Python dates. -/
def daysBetween (a b : Date) : Int := toRataDie b - toRataDie a

/-- The day after `d`. -/
def nextDay (d : Date) : Date :=
  if d.day < daysInMonth d.year d.month then { d with day := d.day + 1 }
  else if d.month < 12 then { year := d.year, month := d.month + 1, day := 1 }
  else { year := d.year + 1, month := 1, day := 1 }

/-- The day before `d`. -/
def prevDay (d : Date) : Date :=
  if 1 < d.day then { d with day := d.day - 1 }
  else if 1 < d.month then
    { year := d.year, month := d.month - 1,
      day := daysInMonth d.year (d.month - 1) }
  else { year := d.year - 1, month := 12, day := 31 }

/-- `d + timedelta(days = n)` for `n ≥ 0`. -/
def addDays (d : Date) : Nat → Date
  | 0 => d
  | n + 1 => nextDay (addDays d n)

/-- `d - timedelta(days = n)` for `n ≥ 0`. -/
def subDays (d : Date) : Nat → Date
  | 0 => d
  | n + 1 => prevDay (subDays d n)

end Date

/-! ## Sorting with deduplication

`sorted(set(xs))` in Python is the strictly increasing enumeration of the
elements of `xs`; `sortDedup` below computes it by insertion, dropping
duplicates. -/

section SortDedup

variable {α : Type*} [LinearOrder α]

/-- Insert `x` into a strictly sorted list, keeping it strictly sorted. -/
def insertD (x : α) : List α → List α
  | [] => [x]
  | y :: ys =>
    if x < y then x :: y :: ys
    else if x = y then y :: ys
    else y :: insertD x ys

/-- `sorted(set(l))`: the strictly increasing enumeration of `l`'s
elements. -/
def sortDedup (l : List α) : List α := l.foldr insertD []

theorem mem_insertD {x a : α} {l : List α} :
    a ∈ insertD x l ↔ a = x ∨ a ∈ l := by
  induction l with
  | nil => simp [insertD]
  | cons y ys ih =>
    show a ∈ (if x < y then x :: y :: ys else
      if x = y then y :: ys else y :: insertD x ys) ↔ _
    split_ifs with h1 h2
    · simp
    · subst h2
      simp only [List.mem_cons]
      tauto
    · simp only [List.mem_cons, ih]
      tauto

theorem chain'_insertD {x : α} {l : List α}
    (h : l.Chain' (· < ·)) : (insertD x l).Chain' (· < ·) := by
  induction l with
  | nil => simp [insertD]
  | cons y ys ih =>
    have htail : ys.Chain' (· < ·) := h.tail
    have hrec := ih htail
    show List.Chain' (· < ·) (if x < y then x :: y :: ys else
      if x = y then y :: ys else y :: insertD x ys)
    split_ifs with h1 h2
    · exact List.Chain'.cons h1 h
    · exact h
    · have hyx : y < x := by
        rcases lt_trichotomy x y with h' | h' | h' <;> tauto
      rw [List.chain'_cons']
      refine ⟨?_, hrec⟩
      intro hd hhd
      cases ys with
      | nil =>
        simp [insertD] at hhd
        subst hhd
        exact hyx
      | cons z zs =>
        have hyz : y < z := (List.chain'_cons.mp h).1
        have : insertD x (z :: zs) = (if x < z then x :: z :: zs else
          if x = z then z :: zs else z :: insertD x zs) := rfl
        rw [this] at hhd
        split_ifs at hhd with h3 h4 <;>
          simp only [List.head?_cons, Option.mem_def, Option.some.injEq] at hhd <;>
          subst hhd
        · exact hyx
        · exact hyz
        · exact hyz

theorem chain'_sortDedup (l : List α) : (sortDedup l).Chain' (· < ·) := by
  induction l with
  | nil => simp [sortDedup]
  | cons x xs ih => exact chain'_insertD ih

theorem mem_sortDedup {a : α} {l : List α} : a ∈ sortDedup l ↔ a ∈ l := by
  induction l with
  | nil => simp [sortDedup]
  | cons x xs ih =>
    show a ∈ insertD x (sortDedup xs) ↔ _
    rw [mem_insertD, ih]
    simp

/-- Inserting an element strictly above everything in a strictly sorted
list appends it. -/
theorem insertD_append_of_forall_lt {x : α} {l : List α}
    (h : ∀ y ∈ l, y < x) : insertD x l = l ++ [x] := by
  induction l with
  | nil => simp [insertD]
  | cons y ys ih =>
    have hyx : y < x := h y (by simp)
    unfold insertD
    rw [if_neg (by exact fun h' => absurd (lt_trans h' hyx) (lt_irrefl x)),
        if_neg (by rintro rfl; exact absurd hyx (lt_irrefl x))]
    rw [ih (fun z hz => h z (by simp [hz]))]
    simp

end SortDedup

/-! ## Business-day calendar (`jcb_calendar.py`) -/

/-- The business-day notion hardcoded in the free function
`adjust_to_business_day`: `x.weekday() < 5 and x not in holidays`.
Note it fixes the weekend to Saturday/Sunday. -/
def isBusinessDayFree (holidays : List Date) (d : Date) : Bool :=
  decide (d.weekday < 5) && !(holidays.contains d)

/-- Roll forward (`while not is_business_day(d): d += timedelta(days=1)`),
with fuel for the unbounded loop; `none` means the fuel ran out. -/
def rollForward (holidays : List Date) : Nat → Date → Option Date
  | 0, _ => none
  | fuel + 1, d =>
    if isBusinessDayFree holidays d then some d
    else rollForward holidays fuel d.nextDay

/-- Roll backward. -/
def rollBackward (holidays : List Date) : Nat → Date → Option Date
  | 0, _ => none
  | fuel + 1, d =>
    if isBusinessDayFree holidays d then some d
    else rollBackward holidays fuel d.prevDay

/-- `adjust_to_business_day(d, holidays, convention)`.  Conventions are
`"f"` (following), `"p"` (preceding) and `"mf"` (modified following: roll
forward, but if that leaves `d`'s month, roll backward from `d` instead).
`none` covers both fuel exhaustion and the `ValueError` on an unsupported
convention. -/
def adjustToBusinessDay (holidays : List Date) (d : Date) (convention : String)
    (fuel : Nat) : Option Date :=
  if convention = "f" then rollForward holidays fuel d
  else if convention = "p" then rollBackward holidays fuel d
  else if convention = "mf" then
    match rollForward holidays fuel d with
    | none => none
    | some adjusted =>
      if adjusted.month ≠ d.month then rollBackward holidays fuel d
      else some adjusted
  else none

/-- `BusinessDayCalendar`: an immutable holiday set plus a weekend
weekday set (default `{5, 6}` = Saturday/Sunday). -/
structure BusinessDayCalendar where
  holidays : List Date
  weekend : List Nat
deriving DecidableEq, Repr

namespace BusinessDayCalendar

/-- The default `weekend` argument of the constructor. -/
def defaultWeekend : List Nat := [5, 6]

/-- `BusinessDayCalendar.is_business_day`: uses the instance's weekend
set, unlike the free function above. -/
def isBusinessDay (cal : BusinessDayCalendar) (d : Date) : Bool :=
  !(cal.weekend.contains d.weekday) && !(cal.holidays.contains d)

/-- `BusinessDayCalendar.adjust`: delegates to the free function
`adjust_to_business_day(d, self.holidays, convention)` — which ignores
`self.weekend`. -/
def adjust (cal : BusinessDayCalendar) (d : Date) (convention : String)
    (fuel : Nat) : Option Date :=
  adjustToBusinessDay cal.holidays d convention fuel

/-- One search step of `workday`'s inner loop: step one day in the given
direction until a business day (by the instance's `is_business_day`) is
found. -/
def stepToBusinessDay (cal : BusinessDayCalendar) (forward : Bool) :
    Nat → Date → Option Date
  | 0, _ => none
  | fuel + 1, d =>
    let d' := if forward then d.nextDay else d.prevDay
    if cal.isBusinessDay d' then some d'
    else stepToBusinessDay cal forward fuel d'

/-- `BusinessDayCalendar.workday(start, days)`: Excel-style move of
`days` business days; `days = 0` returns `start` if it is a business day,
else the next business day.  The start date is never counted. -/
def workday (cal : BusinessDayCalendar) (start : Date) (days : Int)
    (fuel : Nat) : Option Date :=
  if days = 0 then
    if cal.isBusinessDay start then some start
    else stepToBusinessDay cal true fuel start
  else
    let forward := 0 < days
    let rec go : Nat → Nat → Date → Option Date
      | _, 0, d => some d
      | 0, _ + 1, _ => none
      | f + 1, remaining + 1, d =>
        match stepToBusinessDay cal forward (f + 1) d with
        | none => none
        | some d' => go f remaining d'
    go fuel days.natAbs start

/-- A total wrapper for `adjust` used by the schedule builder: the Python
loop always terminates (weekends and a finite holiday list cannot exclude
every day), and `totalFuel` is always enough in any real use; if it were
not, we fall back to the unadjusted date. -/
def totalFuel (cal : BusinessDayCalendar) : Nat := 7 * cal.holidays.length + 14

/-- `calendar.adjust(dt, convention)` as the total function the schedule
builder consumes. -/
def adjustTotal (cal : BusinessDayCalendar) (d : Date) (convention : String) :
    Date :=
  (cal.adjust d convention (cal.totalFuel)).getD d

/-- `shift_business_days` is an alias of `workday`; total wrapper with the
same fallback convention as `adjustTotal`. -/
def workdayTotal (cal : BusinessDayCalendar) (start : Date) (days : Int) :
    Date :=
  (cal.workday start days (cal.totalFuel + days.natAbs * cal.totalFuel)).getD start

end BusinessDayCalendar

/-! ## Data model (`models/cashflows.py`, `conv_bond_model.py`) -/

/-- `CashflowRow`: the canonical cashflow row. -/
structure CashflowRow where
  period_start : Date
  period_end : Date
  quasi_date : Date
  adjusted_date : Date
  is_stub : Bool
  accrual_factor : ℚ
  coupon_amount : ℚ
  principal : ℚ := 0
  note : Option String := none
deriving DecidableEq, Repr

/-- The state of a constructed `CashflowModel`: `couponRate` is the
normalised (decimal) rate stored by `__init__`. -/
structure CashflowModel where
  couponRate : ℚ
  issue_date : Date
  maturity_date : Date
  frequency : Nat
  notional : ℚ
  calendar : Option BusinessDayCalendar
  convention : String
  first_coupon_length : Option String
  first_coupon_date : Option Date
  last_coupon_date : Option Date
deriving DecidableEq, Repr

/-- The `rate_unit` keyword of the constructor. -/
inductive RateUnit
  | auto
  | percent
  | decimal
deriving DecidableEq, Repr

/-- Coupon-rate normalisation in `CashflowModel.__init__`: explicit
percent/decimal flags, and in `"auto"` mode anything in `[0, 20]` is a
percent (divide by 100), larger values are taken as already decimal. -/
def normalizeRate (unit : RateUnit) (couponRate : ℚ) : ℚ :=
  match unit with
  | .percent => couponRate / 100
  | .decimal => couponRate
  | .auto => if 0 ≤ couponRate ∧ couponRate ≤ 20 then couponRate / 100 else couponRate

/-- `CashflowModel.__init__`: normalise the rate, reject negative rates,
then reject frequencies outside {1, 2, 4, 12}. -/
def mkCashflowModel (issue_date maturity_date : Date) (couponRate : ℚ)
    (frequency : Nat) (rateUnit : RateUnit := .auto) (notional : ℚ := 100)
    (calendar : Option BusinessDayCalendar := none)
    (convention : String := "mf")
    (first_coupon_length : Option String := none)
    (first_coupon_date : Option Date := none)
    (last_coupon_date : Option Date := none) : Except String CashflowModel :=
  let cr := normalizeRate rateUnit couponRate
  if cr < 0 then .error "coupon_rate cannot be negative."
  else if frequency = 1 ∨ frequency = 2 ∨ frequency = 4 ∨ frequency = 12 then
    .ok { couponRate := cr, issue_date, maturity_date, frequency, notional,
          calendar, convention, first_coupon_length, first_coupon_date,
          last_coupon_date }
  else .error "frequency must be 1, 2, 4, or 12 coupons per year."

/-! ## Schedule builder (`generate_cashflow_schedule`) -/

namespace CashflowModel

/-- `_months_per_period`: `12 // frequency`. -/
def monthsPerPeriod (m : CashflowModel) : Nat := 12 / m.frequency

/-- `_adjust`: roll by the calendar if present, else identity. -/
def adjustDate (m : CashflowModel) (dt : Date) : Date :=
  match m.calendar with
  | some cal => cal.adjustTotal dt m.convention
  | none => dt

/-- `_regular_period_days`: nominal regular period length in days. -/
def regularPeriodDays (quasiEnd : Date) (months : Nat) : Int :=
  Date.daysBetween (quasiEnd.subMonths months) quasiEnd

/-- `_accrual_factor`: a period starting exactly at the nominal boundary
`quasi_end - months` gets `1/frequency`; otherwise ACT/ACT-like prorating
over the nominal period length, clipped to non-negative. -/
def accrualFactor (m : CashflowModel) (start endd quasiEnd : Date)
    (months : Nat) : ℚ :=
  let nominalStart := quasiEnd.subMonths months
  if start = nominalStart then 1 / (m.frequency : ℚ)
  else
    let actual : Int := max (Date.daysBetween start endd) 0
    let denom : Int := max (regularPeriodDays quasiEnd months) 1
    ((actual : ℚ) / (denom : ℚ)) / (m.frequency : ℚ)

/-- `_coupon_amount`: `notional * coupon_rate * accrual_factor`. -/
def couponAmount (m : CashflowModel) (accrual : ℚ) : ℚ :=
  m.notional * m.couponRate * accrual

/-- `round(x, 10)` applied to the coupon amount.  (Python rounds the
nearest float half to even; on exact rationals we round half up — the
difference is below 10⁻¹⁰ and never surfaces in any claim.) -/
def round10 (q : ℚ) : ℚ := (round (q * 10 ^ 10) : ℚ) / 10 ^ 10

/-- The backward generation loop:
`while cur > issue: append cur; cur -= relativedelta(months=months)`.
For `months = 0` the Python loop would never terminate; the builder only
ever calls this with `months = 12 // frequency ≥ 1` (frequency ∈
{1, 2, 4, 12}), and we return `[]` on that dead branch. -/
def genQuasi (issue : Date) (months : Nat) (cur : Date) : List Date :=
  if h : issue < cur ∧ 0 < months then
    cur :: genQuasi issue months (cur.subMonths months)
  else []
termination_by (Date.monthIndex cur - issue.year * 12 + 1 + months).toNat
decreasing_by
  have hidx : Date.monthIndex (cur.subMonths months) =
      Date.monthIndex cur - months := by
    unfold Date.subMonths
    rw [Date.monthIndex_addMonthsInt]
    ring
  have hcur : issue.year ≤ cur.year := by
    rcases h.1 with h' | ⟨h', _⟩
    · exact le_of_lt h'
    · exact le_of_eq h'
  have hbound : issue.year * 12 - 1 ≤ Date.monthIndex cur := by
    unfold Date.monthIndex
    have : (0 : Int) ≤ (cur.month : Int) := by positivity
    nlinarith
  omega

/-- One row of the schedule (the body of the builder's final loop). -/
def mkRow (m : CashflowModel) (months : Nat) (isFirst : Bool)
    (periodStart periodEnd : Date) : CashflowRow :=
  let quasiEnd := periodEnd
  let adjustedEnd := m.adjustDate quasiEnd
  let nominalStart := quasiEnd.subMonths months
  let firstStub := isFirst && decide (periodStart ≠ nominalStart)
  let lastTarget := m.last_coupon_date.getD m.maturity_date
  let lastStub := m.last_coupon_date.isSome && decide (periodEnd = lastTarget)
    && decide (periodStart ≠ nominalStart)
  let note0 : Option String :=
    if firstStub then
      if m.first_coupon_length = some "Short First" ∨
          m.first_coupon_length = some "Long First" then m.first_coupon_length
      else if nominalStart < periodStart then some "Short First"
      else some "Long First"
    else none
  let note1 : Option String :=
    if lastStub then
      match note0 with
      | some n => some (n ++ " + Last Stub")
      | none => some "Last Stub"
    else note0
  let accrual := m.accrualFactor periodStart periodEnd quasiEnd months
  { period_start := periodStart
    period_end := periodEnd
    quasi_date := quasiEnd
    adjusted_date := adjustedEnd
    is_stub := firstStub || lastStub
    accrual_factor := accrual
    coupon_amount := round10 (m.couponAmount accrual)
    principal := if periodEnd = m.maturity_date then m.notional else 0
    note := note1 }

/-- The builder's final loop over consecutive boundary pairs, carrying the
1-based pair index (only `i = 1` matters, for first-stub detection);
pairs with `period_end ≤ period_start` are skipped. -/
def buildRows (m : CashflowModel) (months : Nat) :
    Nat → List (Date × Date) → List CashflowRow
  | _, [] => []
  | i, (ps, pe) :: rest =>
    if pe ≤ ps then buildRows m months (i + 1) rest
    else m.mkRow months (i = 1) ps pe :: buildRows m months (i + 1) rest

/-- Steps 3â5 of `generate_cashflow_schedule`: the sort/dedup result
(already filtered for a long-first stub when applicable) is asserted and
turned into rows. -/
def finishSchedule (m : CashflowModel) (months : Nat)
    (quasiDates : List Date) : Except String (List CashflowRow) :=
  if quasiDates.length < 2 then
    .error "Schedule needs at least a start and an end date."
  else if quasiDates.getLast? ≠ some m.maturity_date then
    .error "Last quasi-date must be maturity_date."
  else
    pure (m.buildRows months 1 (quasiDates.zip quasiDates.tail))

/-- The tail of step 2 of `generate_cashflow_schedule`: validate the
effective first cash date, sort + dedup, and (when a long-first endpoint
was computed) drop the natural boundaries strictly between issue and that
endpoint. -/
def generateWithFirst (m : CashflowModel) (months : Nat)
    (withLast : List Date) (firstEndEff : Option Date) :
    Except String (List CashflowRow) :=
  match firstEndEff with
  | some fe =>
    if m.issue_date < fe ∧ fe ≤ m.maturity_date then
      m.finishSchedule months
        ((sortDedup (withLast ++ [fe])).filter
          (fun d => !(decide (m.issue_date < d) && decide (d < fe))))
    else .error "first_coupon_date / effective first cash date must be within (issue, maturity]."
  | none => m.finishSchedule months (sortDedup withLast)

/-- Step 2 of `generate_cashflow_schedule`: compute the effective first
cash date (long-first handling) and continue. -/
def generateFrom (m : CashflowModel) (months : Nat) (withLast : List Date) :
    Except String (List CashflowRow) :=
  if m.first_coupon_length = some "Long First" then
    match m.first_coupon_date with
    | some fcd => m.generateWithFirst months withLast (some (fcd.addMonths months))
    | none =>
      match (withLast.filter (fun d => decide (m.issue_date < d))).min? with
      | some firstNominal =>
        m.generateWithFirst months withLast (some (firstNominal.addMonths months))
      | none => .error "min() arg is an empty sequence"
  else m.generateWithFirst months withLast m.first_coupon_date

/-- `generate_cashflow_schedule`: build the quasi boundaries backwards
from maturity, always include the issue date, include a validated
explicit last coupon date, then hand over to the later stages. -/
def generateCashflowSchedule (m : CashflowModel) :
    Except String (List CashflowRow) :=
  let months := m.monthsPerPeriod
  let base := genQuasi m.issue_date months m.maturity_date ++ [m.issue_date]
  match m.last_coupon_date with
  | some lcd =>
    if m.issue_date < lcd ∧ lcd < m.maturity_date then
      m.generateFrom months (base ++ [lcd])
    else .error "last_coupon_date must be strictly between issue_date and maturity_date."
  | none => m.generateFrom months base

end CashflowModel

/-! ## Pricing core (`accrued_interest`, `_pv_dirty_from_yield`, prices)

Floating-point `**` is abstracted as a parameter `pw`; `powInt` below is
the exact value of `**` whenever the exponent is an integer, which it is
in every concrete computation of this development. -/

/-- `b ** e` for a rational exponent that is in fact an integer (den = 1);
the (never exercised) non-integer case returns 0. -/
def powInt (b e : ℚ) : ℚ := if e.den = 1 then b ^ e.num else 0

namespace CashflowModel

/-- `_ex_div_date`: the payment date shifted back `ex_div_business_days`
business days through the calendar if present, else plain calendar days;
non-positive shifts return the payment date itself. -/
def exDivDate (m : CashflowModel) (payDt : Date) (exDivBusinessDays : Int) :
    Date :=
  if exDivBusinessDays ≤ 0 then payDt
  else
    match m.calendar with
    | some cal => cal.workdayTotal payDt (-exDivBusinessDays)
    | none => payDt.subDays exDivBusinessDays.toNat

/-- The scan for the coupon period containing `settlement`
(`period_start <= settlement < period_end`). -/
def findCurrentRow (schedule : List CashflowRow) (settlement : Date) :
    Option CashflowRow :=
  schedule.find? (fun r =>
    decide (r.period_start ≤ settlement) && decide (settlement < r.period_end))

/-- `accrued_interest(settlement, ex_div_business_days)`. -/
def accruedInterest (m : CashflowModel) (settlement : Date)
    (exDivBusinessDays : Int) : Except String ℚ := do
  let months := m.monthsPerPeriod
  let schedule ← m.generateCashflowSchedule
  match findCurrentRow schedule settlement with
  | none => pure 0
  | some curRow =>
    if m.maturity_date ≤ settlement then pure 0
    else
      let exd := m.exDivDate curRow.adjusted_date exDivBusinessDays
      if settlement < exd then
        pure (m.couponAmount
          (m.accrualFactor curRow.period_start settlement curRow.quasi_date months))
      else
        pure (-(m.couponAmount
          (m.accrualFactor settlement curRow.period_end curRow.quasi_date months)))

/-- The discounting loop of `_pv_dirty_from_yield`:
`for n, r in enumerate(future_rows, start=1): pv += (c + p) * one_plus ** (-(n - s))`. -/
def pvLoop (pw : ℚ → ℚ → ℚ) (onePlus s : ℚ) : Nat → List CashflowRow → ℚ
  | _, [] => 0
  | n, r :: rest =>
    (r.coupon_amount + r.principal) * pw onePlus (-((n : ℚ) - s)) +
      pvLoop pw onePlus s (n + 1) rest

/-- The elapsed fraction `s` of the current coupon period used by
`_pv_dirty_from_yield`: the accrual factor from period start to settlement
times the frequency, clamped into [0, 1]; 0 when settlement is in no
period. -/
def elapsedFraction (m : CashflowModel) (schedule : List CashflowRow)
    (settlement : Date) : ℚ :=
  match findCurrentRow schedule settlement with
  | none => 0
  | some r =>
    max 0 (min (m.accrualFactor r.period_start settlement r.quasi_date
      m.monthsPerPeriod * (m.frequency : ℚ)) 1)

/-- The ex-div gate of `_pv_dirty_from_yield`.  The source intends to
zero the coupon of the first future row when `settlement` is on/after its
ex-div date and before its `period_end`, but the replacement row is built
as `CashflowRow(**{**first.__dict__, "coupon_amount": 0.0})` and
`CashflowRow` is a `slots=True` dataclass with no `__dict__`: entering
the gate raises `AttributeError` instead. -/
def gateFutureRows (m : CashflowModel) (settlement : Date)
    (exDivBusinessDays : Int) :
    List CashflowRow → Except String (List CashflowRow)
  | [] => .ok []
  | first :: rest =>
    if m.exDivDate first.adjusted_date exDivBusinessDays ≤ settlement ∧
        settlement < first.period_end then
      .error "AttributeError: CashflowRow object has no attribute __dict__"
    else .ok (first :: rest)

/-- `_pv_dirty_from_yield(y, settlement, ex_div_business_days)`. -/
def pvDirtyFromYield (pw : ℚ → ℚ → ℚ) (m : CashflowModel) (y : ℚ)
    (settlement : Date) (exDivBusinessDays : Int) : Except String ℚ := do
  let schedule ← m.generateCashflowSchedule
  let futureRows := schedule.filter (fun r => decide (settlement < r.period_end))
  if futureRows.isEmpty then pure 0
  else
    let s := m.elapsedFraction schedule settlement
    let futureRows ← m.gateFutureRows settlement exDivBusinessDays futureRows
    let onePlus : ℚ := 1 + y / (m.frequency : ℚ)
    if onePlus ≤ 0 then
      .error "Yield too low for nominal compounding at this frequency."
    else
      pure (pvLoop pw onePlus s 1 futureRows)

/-- `dirty_price_from_yield`. -/
def dirtyPriceFromYield (pw : ℚ → ℚ → ℚ) (m : CashflowModel) (y : ℚ)
    (settlement : Date) (exDivBusinessDays : Int := 7) : Except String ℚ :=
  m.pvDirtyFromYield pw y settlement exDivBusinessDays

/-- `clean_price_from_yield`: dirty price at the *passed*
`ex_div_business_days` minus `accrued_interest(settlement)` — the accrued
call does not forward `ex_div_business_days`, so it uses the default 7. -/
def cleanPriceFromYield (pw : ℚ → ℚ → ℚ) (m : CashflowModel) (y : ℚ)
    (settlement : Date) (exDivBusinessDays : Int := 7) : Except String ℚ := do
  let dirty ← m.dirtyPriceFromYield pw y settlement exDivBusinessDays
  let ai ← m.accruedInterest settlement 7
  pure (dirty - ai)

end CashflowModel

/-! ## Yield root finder (`yield_from_clean_price`) -/

namespace CashflowModel

/-- The bisection loop shared by both branches of
`yield_from_clean_price`: up to `maxIter` halvings, early exit at
`|f(mid)| < tol`, final fallback to the midpoint of the last interval. -/
def bisect (f : ℚ → Except String ℚ) (tol : ℚ) :
    Nat → ℚ → ℚ → ℚ → ℚ → Except String ℚ
  | 0, lo, hi, _, _ => pure ((1 : ℚ) / 2 * (lo + hi))
  | iter + 1, lo, hi, flo, fhi => do
    let mid := (1 : ℚ) / 2 * (lo + hi)
    let fm ← f mid
    if |fm| < tol then pure mid
    else if flo * fm ≤ 0 then bisect f tol iter lo mid flo fm
    else bisect f tol iter mid hi fm fhi

/-- The symmetric bracket-expansion loop (`expand < 12`). -/
def expandBracket (f : ℚ → Except String ℚ) (minY : ℚ) :
    Nat → ℚ → ℚ → ℚ → ℚ → Except String (ℚ × ℚ × ℚ × ℚ)
  | 0, a, b, fa, fb => pure (a, b, fa, fb)
  | expand + 1, a, b, fa, fb =>
    if 0 < fa * fb then do
      let width := b - a
      let a' := max minY (a - width)
      let b' := b + width
      let fa' ← f a'
      let fb' ← f b'
      expandBracket f minY expand a' b' fa' fb'
    else pure (a, b, fa, fb)

/-- The anchor-grid scan: walk the sorted anchors, skip anchors where `f`
raises, return an exact zero immediately, and bisect between the first
adjacent pair with a sign change; error if the scan ends without one. -/
def gridScan (f : ℚ → Except String ℚ) (tol : ℚ) (maxIter : Nat) :
    Option (ℚ × ℚ) → List ℚ → Except String ℚ
  | _, [] =>
    .error "Failed to bracket the yield. Check settlement vs maturity, coupon normalisation, and ex-div."
  | last, y :: rest =>
    match f y with
    | .error _ => gridScan f tol maxIter last rest
    | .ok fy =>
      if fy = 0 then pure y
      else
        match last with
        | some (lastY, lastF) =>
          if fy * lastF < 0 then
            let lo := min lastY y
            let hi := max lastY y
            let flo := if lo = lastY then lastF else fy
            let fhi := if lo = lastY then fy else lastF
            bisect f tol maxIter lo hi flo fhi
          else gridScan f tol maxIter (some (y, fy)) rest
        | none => gridScan f tol maxIter (some (y, fy)) rest

/-- `min_y = -0.99 * frequency + 1e-9`: keeps `1 + y/frequency > 0`. -/
def minYieldFloor (m : CashflowModel) : ℚ :=
  -(99 : ℚ) / 100 * (m.frequency : ℚ) + 1 / 10 ^ 9

/-- The anchor grid of `yield_from_clean_price`: fixed anchors, optional
hints near `y0`, hints near the coupon rate; then
`sorted({a for a in anchors if a > min_y})`. -/
def anchorGrid (m : CashflowModel) (minY : ℚ) (y0 : Option ℚ) : List ℚ :=
  let fqy : ℚ := (m.frequency : ℚ)
  let base : List ℚ :=
    [minY + 1 / 10 ^ 9, -(3 : ℚ) / 4 * fqy, -(1 : ℚ) / 2 * fqy,
     -(1 : ℚ) / 4 * fqy, -(1 : ℚ) / 10 * fqy, -(1 : ℚ) / 20,
     0, 1 / 100, 1 / 50, 1 / 20, 1 / 10, 1 / 5, 1 / 2, 1, 2, 5, 10]
  let withY0 :=
    match y0 with
    | some v => base ++ [v - 1 / 20, v + 1 / 20]
    | none => base
  let withCoupon :=
    withY0 ++ [max minY (m.couponRate - 1 / 20), m.couponRate + 1 / 20]
  sortDedup (withCoupon.filter (fun a => decide (minY < a)))

/-- `yield_from_clean_price(clean_price, settlement, ex_div_business_days,
y0, tol, max_iter, bracket)`. -/
def yieldFromCleanPrice (pw : ℚ → ℚ → ℚ) (m : CashflowModel)
    (cleanPrice : ℚ) (settlement : Date) (exDivBusinessDays : Int := 7)
    (y0 : Option ℚ := none) (tol : ℚ := 1 / 10 ^ 9) (maxIter : Nat := 8)
    (bracket : Option (ℚ × ℚ) := none) : Except String ℚ := do
  let ai ← m.accruedInterest settlement exDivBusinessDays
  let targetDirty := cleanPrice + ai
  let f : ℚ → Except String ℚ := fun y => do
    let pv ← m.pvDirtyFromYield pw y settlement exDivBusinessDays
    pure (pv - targetDirty)
  let minY : ℚ := m.minYieldFloor
  -- 1) honour a user-supplied bracket, expanded up to 12 times
  let fromBracket : Option ℚ ←
    match bracket with
    | some (b1, b2) => do
      let a := max minY b1
      let b := max (minY + 1 / 10 ^ 9) b2
      let fa ← f a
      let fb ← f b
      let (a, b, fa, fb) ← expandBracket f minY 12 a b fa fb
      if fa = 0 then pure (some a)
      else if fb = 0 then pure (some b)
      else if fa * fb < 0 then do
        let r ← bisect f tol maxIter a b fa fb
        pure (some r)
      else pure none  -- fall through to the grid scan
    | none => pure none
  match fromBracket with
  | some r => pure r
  | none =>
    -- 2) anchor grid scan
    gridScan f tol maxIter none (m.anchorGrid minY y0)

end CashflowModel

/-! ## Portfolio optimiser and aggregation
(`portfolio_optimiser.py`, `portfolio_builders.py`) -/

/-- Dot product of two equally long rational vectors. -/
def dotQ (a b : List ℚ) : ℚ :=
  ((a.zip b).map (fun p => p.1 * p.2)).sum

/-- Transpose of a rectangular rational matrix held as a row list
(column count taken from the first row). -/
def transposeQ : List (List ℚ) → List (List ℚ)
  | [] => []
  | [] :: _ => []
  | (x :: xs) :: rest =>
    (x :: rest.map (fun r => r.headD 0)) ::
      transposeQ (xs :: rest.map List.tail)
termination_by rows => (rows.headD []).length

/-- Matrix-vector product. -/
def matVecQ (rows : List (List ℚ)) (v : List ℚ) : List ℚ :=
  rows.map (fun r => dotQ r v)

/-- Matrix-matrix product. -/
def matMulQ (a b : List (List ℚ)) : List (List ℚ) :=
  let bt := transposeQ b
  a.map (fun r => bt.map (fun c => dotQ r c))

/-- `np.linalg.solve` on a 2×2 system, modelled by its contract: the
unique solution when the matrix is invertible (Cramer), `none` for the
`LinAlgError` (singular) case. -/
def npSolve2 (a : List (List ℚ)) (b : List ℚ) : Option (List ℚ) :=
  match a, b with
  | [[a11, a12], [a21, a22]], [b1, b2] =>
    let det := a11 * a22 - a12 * a21
    if det = 0 then none
    else some [(b1 * a22 - a12 * b2) / det, (a11 * b2 - b1 * a21) / det]
  | _, _ => none

/-- `solve_portfolio_weights(C, Y)` for two bonds: form the normal
equations `(CᵀC) w = CᵀY` and solve them.  (The `lstsq` fallback fires
only on the singular `none` branch and is not modelled — every claim's
matrix is invertible.) -/
def solvePortfolioWeights (cMatrix : List (List ℚ)) (yVector : List ℚ) :
    Option (List ℚ) :=
  let ct := transposeQ cMatrix
  npSolve2 (matMulQ ct cMatrix) (matVecQ ct yVector)

/-- Residual vector `Y - C·w` of `build_portfolio`. -/
def residualsQ (cMatrix : List (List ℚ)) (yVector w : List ℚ) : List ℚ :=
  (yVector.zip (matVecQ cMatrix w)).map (fun p => p.1 - p.2)

/-- Mean of a rational list (`np.mean`). -/
def meanQ (l : List ℚ) : ℚ := l.sum / (l.length : ℚ)

/-- `mse = np.mean(residuals ** 2)`. -/
def mseQ (residuals : List ℚ) : ℚ := meanQ (residuals.map (fun r => r ^ 2))

/-- `r_squared = 1 - Σr² / Σ(Y - mean(Y))²`. -/
def rSquaredQ (yVector residuals : List ℚ) : ℚ :=
  1 - (residuals.map (fun r => r ^ 2)).sum /
    ((yVector.map (fun v => (v - meanQ yVector) ^ 2)).sum)

/-- `create_unified_timeline(cf_target, cf_mat, settlement_date,
drop_zeros)`: the target schedule is a date-indexed single column, the
bond matrix a date-indexed row of `ncols` bond columns.  Union the dates,
keep those strictly after settlement (error when none is left), zero-fill
both sides, put the target column first, and optionally drop all-zero
rows. -/
def createUnifiedTimeline (cfTarget : List (Date × ℚ))
    (cfMat : List (Date × List ℚ)) (ncols : Nat)
    (settlementDate : Option Date) (dropZeros : Bool) :
    Except String (List (Date × List ℚ)) :=
  let allDates := sortDedup (cfTarget.map Prod.fst ++ cfMat.map Prod.fst)
  let allDates :=
    match settlementDate with
    | some s => allDates.filter (fun d => decide (s < d))
    | none => allDates
  if allDates.isEmpty then .error "No dates found after settlement date"
  else
    let targetAt := fun d => ((cfTarget.find? (fun p => p.1 = d)).map Prod.snd).getD 0
    let bondsAt := fun d =>
      ((cfMat.find? (fun p => p.1 = d)).map Prod.snd).getD (List.replicate ncols 0)
    let rows := allDates.map (fun d => (d, targetAt d :: bondsAt d))
    pure (if dropZeros then rows.filter (fun r => r.2.any (fun x => decide (x ≠ 0)))
          else rows)

/-- The anchor grid a default (`bracket = None`, `y0 = None`) call of
`yield_from_clean_price` scans. -/
def CashflowModel.defaultAnchors (m : CashflowModel) : List ℚ :=
  m.anchorGrid m.minYieldFloor none

/-- The `j`-th theoretical boundary counted backwards from maturity:
`maturity - j * (12/frequency) months`, stepped one period at a time as
the builder's loop does. -/
def CashflowModel.iterateSub (m : CashflowModel) (j : Nat) : Date :=
  (fun d => Date.subMonths d m.monthsPerPeriod)^[j] m.maturity_date

/-- Consecutive pairs of a list (`zip(l, l[1:])`). -/
def zipConsec {α : Type*} (l : List α) : List (α × α) := l.zip l.tail

/-- The largest gap between consecutive entries of a rational list (0 for
lists without a pair). -/
def maxGapQ (l : List ℚ) : ℚ :=
  ((zipConsec l).map (fun p => p.2 - p.1)).foldr max 0

theorem maxGapQ_nonneg (l : List ℚ) : 0 ≤ maxGapQ l := by
  unfold maxGapQ
  induction ((zipConsec l).map (fun p => p.2 - p.1)) with
  | nil => simp
  | cons x xs ih =>
    simp only [List.foldr_cons]
    exact le_trans ih (le_max_right x _)

theorem mem_foldr_max_le {x : ℚ} {xs : List ℚ} (hx : x ∈ xs) :
    x ≤ xs.foldr max 0 := by
  induction xs with
  | nil => simp at hx
  | cons a as ih =>
    simp only [List.foldr_cons]
    rcases List.mem_cons.mp hx with h | h
    · rw [h]; exact le_max_left _ _
    · exact le_trans (ih h) (le_max_right _ _)

theorem le_maxGapQ {l : List ℚ} {p : ℚ × ℚ} (hp : p ∈ zipConsec l) :
    p.2 - p.1 ≤ maxGapQ l :=
  mem_foldr_max_le (List.mem_map_of_mem _ hp)

theorem zipConsec_cons_cons {α : Type*} (a b : α) (l : List α) :
    zipConsec (a :: b :: l) = (a, b) :: zipConsec (b :: l) := rfl

/-- A strictly decreasing list sorts (with dedup) to its reverse. -/
theorem sortDedup_of_chain_gt {α : Type*} [LinearOrder α] {l : List α}
    (h : l.Chain' (· > ·)) : sortDedup l = l.reverse := by
  induction l with
  | nil => rfl
  | cons a l' ih =>
    have htail : l'.Chain' (· > ·) := h.tail
    have hpw := List.chain'_iff_pairwise.mp h
    have hall : ∀ y ∈ l', y < a := fun y hy => (List.pairwise_cons.mp hpw).1 y hy
    show insertD a (sortDedup l') = (a :: l').reverse
    rw [ih htail,
      insertD_append_of_forall_lt (fun y hy => hall y (List.mem_reverse.mp hy)),
      List.reverse_cons]

/-! ## The regular (stub-free) schedule

When the issue date is reached exactly by stepping `12/frequency` months
back from maturity `K` times, the generated schedule consists of `K`
regular rows. -/

theorem genQuasi_pos {issue : Date} {months : Nat} {cur : Date}
    (h : issue < cur) (hm : 0 < months) :
    CashflowModel.genQuasi issue months cur =
      cur :: CashflowModel.genQuasi issue months (cur.subMonths months) := by
  rw [CashflowModel.genQuasi]
  rw [dif_pos ⟨h, hm⟩]

theorem genQuasi_neg {issue : Date} {months : Nat} {cur : Date}
    (h : ¬(issue < cur ∧ 0 < months)) :
    CashflowModel.genQuasi issue months cur = [] := by
  rw [CashflowModel.genQuasi, dif_neg h]

theorem iterate_subMonths_month_le (months : Nat) (top : Date)
    (htop : top.month ≤ 12) (j : Nat) :
    ((fun d => Date.subMonths d months)^[j] top).month ≤ 12 := by
  cases j with
  | zero => exact htop
  | succ n =>
    rw [Function.iterate_succ_apply']
    exact Date.addMonthsInt_month_le _ _

theorem iterate_subMonths_strictAnti (months : Nat) (hm : 0 < months)
    (top : Date) (htop : top.month ≤ 12) :
    StrictAnti (fun j => (fun d => Date.subMonths d months)^[j] top) := by
  apply strictAnti_nat_of_succ_lt
  intro n
  show (fun d => Date.subMonths d months)^[n + 1] top <
    (fun d => Date.subMonths d months)^[n] top
  rw [Function.iterate_succ_apply']
  exact Date.subMonths_lt _ hm (iterate_subMonths_month_le months top htop n)

theorem genQuasi_iterate_eq (months : Nat) (hm : 0 < months)
    (top issue : Date) (htop : top.month ≤ 12) (K : Nat)
    (hiter : (fun d => Date.subMonths d months)^[K] top = issue) :
    ∀ n j, j + n = K →
      CashflowModel.genQuasi issue months
          ((fun d => Date.subMonths d months)^[j] top) =
        (List.range n).map
          (fun i => (fun d => Date.subMonths d months)^[j + i] top) := by
  intro n
  induction n with
  | zero =>
    intro j hj
    have hjK : j = K := by omega
    subst hjK
    rw [hiter, List.range_zero, List.map_nil]
    exact genQuasi_neg (fun hcon => absurd hcon.1 (lt_irrefl issue))
  | succ n ih =>
    intro j hj
    have hjK : j < K := by omega
    have hlt : issue <
        (fun d => Date.subMonths d months)^[j] top := by
      rw [← hiter]
      exact iterate_subMonths_strictAnti months hm top htop hjK
    rw [genQuasi_pos hlt hm]
    have hstep : ((fun d => Date.subMonths d months)^[j] top).subMonths months =
        (fun d => Date.subMonths d months)^[j + 1] top := by
      rw [Function.iterate_succ_apply']
    rw [hstep, ih (j + 1) (by omega)]
    rw [List.range_succ_eq_map, List.map_cons, List.map_map]
    congr 1
    apply List.map_congr_left
    intro i _
    show (fun d => Date.subMonths d months)^[j + 1 + i] top =
      (fun d => Date.subMonths d months)^[j + i.succ] top
    congr 1
    omega

namespace CashflowModel

/-- A regular schedule row with period end `pe`: starts one period
earlier, no stub, accrual `1/frequency`, principal only at maturity. -/
def regRow (m : CashflowModel) (pe : Date) : CashflowRow :=
  { period_start := pe.subMonths m.monthsPerPeriod
    period_end := pe
    quasi_date := pe
    adjusted_date := pe
    is_stub := false
    accrual_factor := 1 / (m.frequency : ℚ)
    coupon_amount := round10 (m.couponAmount (1 / (m.frequency : ℚ)))
    principal := if pe = m.maturity_date then m.notional else 0
    note := none }

/-- `monthsPerPeriod` is positive for the frequencies the constructor
accepts. -/
theorem monthsPerPeriod_pos (m : CashflowModel)
    (hfreq : m.frequency = 1 ∨ m.frequency = 2 ∨ m.frequency = 4 ∨
      m.frequency = 12) : 0 < m.monthsPerPeriod := by
  unfold monthsPerPeriod
  rcases hfreq with h | h | h | h <;> rw [h] <;> norm_num

/-- A builder row over a regular boundary pair is `regRow`. -/
theorem mkRow_reg (m : CashflowModel) (hcal : m.calendar = none)
    (hlcd : m.last_coupon_date = none) (isFirst : Bool) (pe : Date) :
    m.mkRow m.monthsPerPeriod isFirst (pe.subMonths m.monthsPerPeriod) pe =
      m.regRow pe := by
  unfold mkRow regRow adjustDate accrualFactor
  rw [hcal, hlcd]
  simp

theorem buildRows_nil (m : CashflowModel) (months i : Nat) :
    m.buildRows months i [] = [] := rfl

theorem buildRows_cons (m : CashflowModel) (months i : Nat) (ps pe : Date)
    (rest : List (Date × Date)) :
    m.buildRows months i ((ps, pe) :: rest) =
      if pe ≤ ps then m.buildRows months (i + 1) rest
      else m.mkRow months (decide (i = 1)) ps pe ::
        m.buildRows months (i + 1) rest := rfl

/-- The builder's row loop over the regular boundary chain
`[D j, ..., D 0]` (held as `((range (j+1)).map D).reverse`) produces the
`j` regular rows with period ends `D (j-1), ..., D 0`. -/
theorem buildRows_reg (m : CashflowModel) (hcal : m.calendar = none)
    (hlcd : m.last_coupon_date = none) (D : Nat → Date)
    (hstep : ∀ i, D (i + 1) = (D i).subMonths m.monthsPerPeriod)
    (hanti : ∀ i, D (i + 1) < D i) :
    ∀ (j : Nat) (i0 : Nat),
      m.buildRows m.monthsPerPeriod i0
          (zipConsec (((List.range (j + 1)).map D).reverse)) =
        (List.range j).map (fun r => m.regRow (D (j - 1 - r))) := by
  intro j
  induction j with
  | zero =>
    intro i0
    rfl
  | succ j ih =>
    intro i0
    have hsplit : ((List.range (j + 1 + 1)).map D).reverse =
        D (j + 1) :: ((List.range (j + 1)).map D).reverse := by
      rw [List.range_succ, List.map_append, List.reverse_append]
      rfl
    have hhead : (((List.range (j + 1)).map D).reverse).head? = some (D j) := by
      rw [List.head?_reverse, List.range_succ, List.map_append]
      simp
    rcases hrev : ((List.range (j + 1)).map D).reverse with _ | ⟨hd, tl⟩
    · rw [hrev] at hhead
      simp at hhead
    · rw [hrev] at hhead
      simp only [List.head?_cons, Option.some.injEq] at hhead
      subst hhead
      rw [hsplit, hrev, zipConsec_cons_cons, buildRows_cons,
        if_neg (not_le.mpr (hanti j)), hstep j,
        mkRow_reg m hcal hlcd _ (D j), ← hrev, ih (i0 + 1)]
      rw [List.range_succ_eq_map, List.map_cons, List.map_map]
      congr 1
      apply List.map_congr_left
      intro r _
      show m.regRow (D (j - 1 - r)) = m.regRow (D (j + 1 - 1 - r.succ))
      rw [show j + 1 - 1 - r.succ = j - 1 - r from by omega]

/-- With no stub hints and no explicit first/last coupon dates, the
schedule pipeline reduces to: sort/dedup the backward boundaries plus the
issue date, assert, and build rows. -/
theorem generate_no_hints (m : CashflowModel)
    (hfcl : m.first_coupon_length = none) (hfcd : m.first_coupon_date = none)
    (hlcd : m.last_coupon_date = none) :
    m.generateCashflowSchedule =
      (if (sortDedup (genQuasi m.issue_date m.monthsPerPeriod m.maturity_date ++
            [m.issue_date])).length < 2 then
        .error "Schedule needs at least a start and an end date."
      else if (sortDedup (genQuasi m.issue_date m.monthsPerPeriod m.maturity_date ++
            [m.issue_date])).getLast? ≠ some m.maturity_date then
        .error "Last quasi-date must be maturity_date."
      else
        pure (m.buildRows m.monthsPerPeriod 1
          ((sortDedup (genQuasi m.issue_date m.monthsPerPeriod m.maturity_date ++
            [m.issue_date])).zip
           (sortDedup (genQuasi m.issue_date m.monthsPerPeriod m.maturity_date ++
            [m.issue_date])).tail))) := by
  obtain ⟨cr, issue, mat, freq, notio, cal, conv, fcl, fcd, lcd⟩ := m
  obtain rfl : fcl = none := hfcl
  obtain rfl : fcd = none := hfcd
  obtain rfl : lcd = none := hlcd
  rfl

/-- The regular-schedule theorem: when stepping `12/frequency` months back
from maturity `K ≥ 1` times lands exactly on the issue date (and there are
no stub hints), the generated schedule is the `K` regular rows. -/
theorem regular_schedule (m : CashflowModel) (K : Nat)
    (hfreq : m.frequency = 1 ∨ m.frequency = 2 ∨ m.frequency = 4 ∨
      m.frequency = 12)
    (hcal : m.calendar = none) (hfcl : m.first_coupon_length = none)
    (hfcd : m.first_coupon_date = none) (hlcd : m.last_coupon_date = none)
    (hmo : m.maturity_date.month ≤ 12) (hK : 1 ≤ K)
    (hiter : m.iterateSub K = m.issue_date) :
    m.generateCashflowSchedule =
      .ok ((List.range K).map (fun r => m.regRow (m.iterateSub (K - 1 - r)))) := by
  have hm : 0 < m.monthsPerPeriod := monthsPerPeriod_pos m hfreq
  have hgen : genQuasi m.issue_date m.monthsPerPeriod m.maturity_date =
      (List.range K).map (fun j => m.iterateSub j) := by
    have h0 := genQuasi_iterate_eq m.monthsPerPeriod hm m.maturity_date
      m.issue_date hmo K hiter K 0 (by omega)
    rw [show (fun d => Date.subMonths d m.monthsPerPeriod)^[0] m.maturity_date
      = m.maturity_date from rfl] at h0
    rw [h0]
    apply List.map_congr_left
    intro i _
    show (fun d => Date.subMonths d m.monthsPerPeriod)^[0 + i] m.maturity_date
      = m.iterateSub i
    rw [Nat.zero_add]
    rfl
  have hbase : genQuasi m.issue_date m.monthsPerPeriod m.maturity_date ++
      [m.issue_date] = (List.range (K + 1)).map (fun j => m.iterateSub j) := by
    rw [hgen, List.range_succ, List.map_append, ← hiter]
    rfl
  have hstep : ∀ i, m.iterateSub (i + 1) =
      (m.iterateSub i).subMonths m.monthsPerPeriod := by
    intro i
    show (fun d => Date.subMonths d m.monthsPerPeriod)^[i + 1] m.maturity_date = _
    rw [Function.iterate_succ_apply']
    rfl
  have hanti : ∀ i, m.iterateSub (i + 1) < m.iterateSub i := by
    intro i
    rw [hstep i]
    exact Date.subMonths_lt _ hm
      (iterate_subMonths_month_le m.monthsPerPeriod _ hmo i)
  have hchain : ((List.range (K + 1)).map (fun j => m.iterateSub j)).Chain'
      (· > ·) := by
    rw [List.chain'_map]
    rw [show K + 1 = K.succ from rfl, List.chain'_range_succ]
    intro i _
    exact hanti i
  have hsorted : sortDedup (genQuasi m.issue_date m.monthsPerPeriod
      m.maturity_date ++ [m.issue_date]) =
      ((List.range (K + 1)).map (fun j => m.iterateSub j)).reverse := by
    rw [hbase]
    exact sortDedup_of_chain_gt hchain
  have hlen : (((List.range (K + 1)).map (fun j => m.iterateSub j)).reverse).length
      = K + 1 := by
    simp
  have hlast : (((List.range (K + 1)).map (fun j => m.iterateSub j)).reverse).getLast?
      = some m.maturity_date := by
    rw [List.getLast?_reverse]
    cases K with
    | zero => rfl
    | succ n =>
      rw [List.range_succ_eq_map, List.map_cons, List.head?_cons]
      rfl
  rw [generate_no_hints m hfcl hfcd hlcd, hsorted]
  rw [if_neg (by rw [hlen]; omega)]
  rw [if_neg (by rw [hlast]; exact fun h => h rfl)]
  have hzip : (((List.range (K + 1)).map (fun j => m.iterateSub j)).reverse).zip
      ((((List.range (K + 1)).map (fun j => m.iterateSub j)).reverse).tail) =
      zipConsec (((List.range (K + 1)).map (fun j => m.iterateSub j)).reverse) := rfl
  rw [hzip, buildRows_reg m hcal hlcd (fun j => m.iterateSub j) hstep hanti K 1]
  rfl

end CashflowModel

/-! ## Claim C6 -/

/-- The example bond of the spec: issue 2020-01-01, maturity 2030-01-01,
coupon 5 (auto mode, treated as 5 % = 1/20), frequency 2, notional 100. -/
def exampleModel : CashflowModel :=
  { couponRate := 1 / 20
    issue_date := ⟨2020, 1, 1⟩
    maturity_date := ⟨2030, 1, 1⟩
    frequency := 2
    notional := 100
    calendar := none
    convention := "mf"
    first_coupon_length := none
    first_coupon_date := none
    last_coupon_date := none }

/-- **C6.**  For every valid (issue, maturity, frequency) whose month span
is an exact multiple of `12/frequency` — stepping `12/frequency` months
back from maturity `K ≥ 1` times lands exactly on the issue date — with no
stub hints or explicit first/last coupon dates, the schedule has exactly
`K` rows, each with accrual factor `1/frequency`; and the concrete example
(issue 2020-01-01, maturity 2030-01-01, coupon 5 in auto mode, frequency
2, notional 100) yields 20 regular semi-annual rows, each with coupon
amount 2.5, and principal 100 on the final row. -/
theorem c6_regular_schedule_row_count :
    (∀ (m : CashflowModel) (K : Nat),
      (m.frequency = 1 ∨ m.frequency = 2 ∨ m.frequency = 4 ∨ m.frequency = 12) →
      m.calendar = none → m.first_coupon_length = none →
      m.first_coupon_date = none → m.last_coupon_date = none →
      m.maturity_date.month ≤ 12 → 1 ≤ K →
      m.iterateSub K = m.issue_date →
      ∃ rows, m.generateCashflowSchedule = .ok rows ∧ rows.length = K ∧
        ∀ r ∈ rows, r.accrual_factor = 1 / (m.frequency : ℚ)) ∧
    (mkCashflowModel ⟨2020, 1, 1⟩ ⟨2030, 1, 1⟩ 5 2 = .ok exampleModel ∧
      ∃ rows, exampleModel.generateCashflowSchedule = .ok rows ∧
        rows.length = 20 ∧
        (∀ r ∈ rows, r.coupon_amount = 5 / 2 ∧ r.is_stub = false ∧
          r.accrual_factor = 1 / 2) ∧
        rows.getLast?.map CashflowRow.principal = some 100) := by
  have hgenPart : ∀ (m : CashflowModel) (K : Nat),
      (m.frequency = 1 ∨ m.frequency = 2 ∨ m.frequency = 4 ∨ m.frequency = 12) →
      m.calendar = none → m.first_coupon_length = none →
      m.first_coupon_date = none → m.last_coupon_date = none →
      m.maturity_date.month ≤ 12 → 1 ≤ K →
      m.iterateSub K = m.issue_date →
      ∃ rows, m.generateCashflowSchedule = .ok rows ∧ rows.length = K ∧
        ∀ r ∈ rows, r.accrual_factor = 1 / (m.frequency : ℚ) := by
    intro m K hfreq hcal hfcl hfcd hlcd hmo hK hiter
    refine ⟨_, CashflowModel.regular_schedule m K hfreq hcal hfcl hfcd hlcd hmo hK hiter, ?_, ?_⟩
    · simp
    · intro r hr
      rcases List.mem_map.mp hr with ⟨i, _, hi⟩
      rw [← hi]
      rfl
  refine ⟨hgenPart, by with_unfolding_all rfl, ?_⟩
  have hiter20 : exampleModel.iterateSub 20 = exampleModel.issue_date := by decide
  have hsched := CashflowModel.regular_schedule exampleModel 20
    (by right; left; rfl) rfl rfl rfl rfl (by decide) (by omega) hiter20
  refine ⟨_, hsched, by decide, by with_unfolding_all decide,
    by with_unfolding_all decide⟩

/-- Witness for C6: the general row-count statement applied to the
concrete 2020→2030 semi-annual bond. -/
theorem c6_regular_schedule_row_count_witness :
    ∃ rows, exampleModel.generateCashflowSchedule = .ok rows ∧
      rows.length = 20 ∧
      ∀ r ∈ rows, r.accrual_factor = 1 / (exampleModel.frequency : ℚ) :=
  c6_regular_schedule_row_count.1 exampleModel 20 (by right; left; rfl)
    rfl rfl rfl rfl (by decide) (by omega) (by decide)

/-! ## Claim C1 -/

/-- A one-period bond: issue 2020-01-01, maturity 2021-01-01, 5 % coupon,
annual frequency, notional 100, no calendar.  Its single coupon period is
regular (not a stub). -/
def oneYearModel : CashflowModel :=
  { couponRate := 1 / 20
    issue_date := ⟨2020, 1, 1⟩
    maturity_date := ⟨2021, 1, 1⟩
    frequency := 1
    notional := 100
    calendar := none
    convention := "mf"
    first_coupon_length := none
    first_coupon_date := none
    last_coupon_date := none }

/-- **C1 (code evaluation).**  On the regular (non-stub) period of
`oneYearModel`, `accrued_interest` is the **full coupon amount 5** both at
the period start 2020-01-01 and mid-period at 2020-06-01 — both well
before the ex-div date 2020-12-25 — instead of accruing from 0: the
regular-period short-circuit of `_accrual_factor` (`start ==
quasi_end - months → 1/frequency`) ignores the settlement end date.  (For
settlement 2020-12-30, inside the ex-div window, it returns the negative
remaining-period accrual −5/183 as documented.) -/
theorem c1_accrued_constant_full_coupon_eval :
    oneYearModel.generateCashflowSchedule =
      .ok [{ period_start := ⟨2020, 1, 1⟩, period_end := ⟨2021, 1, 1⟩,
             quasi_date := ⟨2021, 1, 1⟩, adjusted_date := ⟨2021, 1, 1⟩,
             is_stub := false, accrual_factor := 1, coupon_amount := 5,
             principal := 100, note := none }] ∧
    oneYearModel.exDivDate ⟨2021, 1, 1⟩ 7 = ⟨2020, 12, 25⟩ ∧
    oneYearModel.accruedInterest ⟨2020, 1, 1⟩ 7 = .ok 5 ∧
    oneYearModel.accruedInterest ⟨2020, 6, 1⟩ 7 = .ok 5 ∧
    oneYearModel.accruedInterest ⟨2020, 12, 30⟩ 7 = .ok (-(5 / 183)) ∧
    (5 : ℚ) ≠ 0 := by
  refine ⟨?_, ?_, ?_, ?_, ?_, ?_⟩
  · with_unfolding_all rfl
  · with_unfolding_all rfl
  · with_unfolding_all rfl
  · with_unfolding_all rfl
  · with_unfolding_all rfl
  · norm_num

/-! ## Claim C10 -/

/-- A calendar whose weekend is Wednesday (`weekday 2`) only, with no
holidays. -/
def wednesdayWeekendCal : BusinessDayCalendar :=
  { holidays := [], weekend := [2] }

/-- **C10 (failing input).**  2025-01-01 is a Wednesday, hence not a
business day of `wednesdayWeekendCal` — but `adjust` (any fuel ≥ 1, shown
at 100) returns it unchanged under the "f" convention, because
`BusinessDayCalendar.adjust` delegates to `adjust_to_business_day`, which
hardcodes the Saturday/Sunday weekend (`weekday() < 5`) and ignores the
instance's weekend set. -/
theorem c10_adjust_ignores_weekend_eval :
    (⟨2025, 1, 1⟩ : Date).weekday = 2 ∧
    wednesdayWeekendCal.isBusinessDay ⟨2025, 1, 1⟩ = false ∧
    wednesdayWeekendCal.adjust ⟨2025, 1, 1⟩ "f" 100 = some ⟨2025, 1, 1⟩ ∧
    wednesdayWeekendCal.adjust ⟨2025, 1, 1⟩ "p" 100 = some ⟨2025, 1, 1⟩ ∧
    wednesdayWeekendCal.adjust ⟨2025, 1, 1⟩ "mf" 100 = some ⟨2025, 1, 1⟩ := by
  refine ⟨by decide, by decide, ?_, ?_, ?_⟩ <;> with_unfolding_all rfl

/-! ## Claim C4 -/

/-- **C4 (counterexample).**  With `ex_div_business_days = 0` and
settlement 2020-12-30, `clean_price_from_yield(3 %)` of the one-period
bond is `105 + 5/183` — the dirty price 105 minus the *default-7*
accrued −5/183 — and **not** `dirty − accrued_interest(settlement, 0)
= 105 − 5 = 100`: the claim that both operands use the same
`ex_div_business_days` fails, because `clean_price_from_yield` calls
`accrued_interest(settlement)` without forwarding the argument. -/
theorem c4_counterexample_default_accrued :
    oneYearModel.cleanPriceFromYield powInt (3 / 100) ⟨2020, 12, 30⟩ 0 =
      .ok (105 + 5 / 183) ∧
    oneYearModel.dirtyPriceFromYield powInt (3 / 100) ⟨2020, 12, 30⟩ 0 =
      .ok 105 ∧
    oneYearModel.accruedInterest ⟨2020, 12, 30⟩ 0 = .ok 5 ∧
    (105 : ℚ) + 5 / 183 ≠ 105 - 5 := by
  refine ⟨?_, ?_, ?_, by norm_num⟩ <;> with_unfolding_all rfl

/-- **C4 (amended).**  `clean_price_from_yield(y, settlement, e)` equals
the dirty price at the passed `e` minus `accrued_interest(settlement, 7)`
— the accrued term always uses the **default** `ex_div_business_days = 7`,
whatever `e` is. -/
theorem c4_amended_clean_is_dirty_minus_default_accrued
    (pw : ℚ → ℚ → ℚ) (m : CashflowModel) (y : ℚ) (settlement : Date)
    (e : Int) (d a : ℚ)
    (hd : m.dirtyPriceFromYield pw y settlement e = .ok d)
    (ha : m.accruedInterest settlement 7 = .ok a) :
    m.cleanPriceFromYield pw y settlement e = .ok (d - a) := by
  unfold CashflowModel.cleanPriceFromYield
  rw [hd, ha]
  rfl

/-- Witness for the amended C4 at a concrete input (`e = 0`,
settlement 2020-12-30): the dirty price is 105, the default-7 accrued is
−5/183, and the clean price is their difference. -/
theorem c4_amended_witness :
    oneYearModel.cleanPriceFromYield powInt (3 / 100) ⟨2020, 12, 30⟩ 0 =
      .ok (105 - -(5 / 183)) :=
  c4_amended_clean_is_dirty_minus_default_accrued powInt oneYearModel
    (3 / 100) ⟨2020, 12, 30⟩ 0 105 (-(5 / 183))
    (by with_unfolding_all rfl) (by with_unfolding_all rfl)

/-! ## Claim C7 -/

/-- A model with the given rate and terms and all optional arguments at
their defaults (the state `__init__` stores when it succeeds). -/
def plainModel (cr : ℚ) (issue mat : Date) (freq : Nat) (n : ℚ) :
    CashflowModel :=
  { couponRate := cr
    issue_date := issue
    maturity_date := mat
    frequency := freq
    notional := n
    calendar := none
    convention := "mf"
    first_coupon_length := none
    first_coupon_date := none
    last_coupon_date := none }

/-- **C7.**  In "auto" rate-unit mode the constructor divides any coupon
rate in `[0, 20]` by 100 and keeps larger values unchanged; and for every
negative coupon rate, in any rate-unit mode, construction fails with the
`InvalidCoupon` error instead of producing a model. -/
theorem c7_coupon_rate_normalization :
    (∀ (c : ℚ) (issue mat : Date) (n : ℚ), 0 ≤ c → c ≤ 20 →
      (∃ mm, mkCashflowModel issue mat c 2 .auto n = .ok mm ∧
        mm.couponRate = c / 100)) ∧
    (∀ (c : ℚ) (issue mat : Date) (n : ℚ), 20 < c →
      (∃ mm, mkCashflowModel issue mat c 2 .auto n = .ok mm ∧
        mm.couponRate = c)) ∧
    (∀ (u : RateUnit) (c : ℚ) (issue mat : Date) (freq : Nat) (n : ℚ),
      c < 0 → mkCashflowModel issue mat c freq u n =
        .error "coupon_rate cannot be negative.") := by
  refine ⟨?_, ?_, ?_⟩
  · intro c issue mat n h0 h20
    have hnorm : normalizeRate .auto c = c / 100 := by
      unfold normalizeRate
      rw [if_pos ⟨h0, h20⟩]
    refine ⟨plainModel (c / 100) issue mat 2 n, ?_, rfl⟩
    simp only [mkCashflowModel, hnorm]
    rw [if_neg (not_lt.mpr (by positivity)), if_pos (by norm_num)]
    rfl
  · intro c issue mat n h20
    have hnorm : normalizeRate .auto c = c := by
      unfold normalizeRate
      rw [if_neg (by intro h; linarith [h.2])]
    refine ⟨plainModel c issue mat 2 n, ?_, rfl⟩
    simp only [mkCashflowModel, hnorm]
    rw [if_neg (not_lt.mpr (by linarith)), if_pos (by norm_num)]
    rfl
  · intro u c issue mat freq n hneg
    have hnorm : normalizeRate u c < 0 := by
      cases u with
      | percent =>
        show c / 100 < 0
        linarith
      | decimal => exact hneg
      | auto =>
        show (if 0 ≤ c ∧ c ≤ 20 then c / 100 else c) < 0
        rw [if_neg (by intro h; linarith [h.1])]
        exact hneg
    unfold mkCashflowModel
    rw [if_pos hnorm]

/-- Witness for C7: coupon 5 normalises to 1/20, coupon 25 stays 25, and
coupon −1 is rejected in decimal mode. -/
theorem c7_coupon_rate_normalization_witness :
    (∃ mm, mkCashflowModel ⟨2020, 1, 1⟩ ⟨2021, 1, 1⟩ 5 2 .auto 100 = .ok mm ∧
      mm.couponRate = 5 / 100) ∧
    (∃ mm, mkCashflowModel ⟨2020, 1, 1⟩ ⟨2021, 1, 1⟩ 25 2 .auto 100 = .ok mm ∧
      mm.couponRate = 25) ∧
    mkCashflowModel ⟨2020, 1, 1⟩ ⟨2021, 1, 1⟩ (-1) 2 .decimal 100 =
      .error "coupon_rate cannot be negative." :=
  ⟨c7_coupon_rate_normalization.1 5 ⟨2020, 1, 1⟩ ⟨2021, 1, 1⟩ 100
      (by norm_num) (by norm_num),
   c7_coupon_rate_normalization.2.1 25 ⟨2020, 1, 1⟩ ⟨2021, 1, 1⟩ 100
      (by norm_num),
   c7_coupon_rate_normalization.2.2 .decimal (-1) ⟨2020, 1, 1⟩ ⟨2021, 1, 1⟩
      2 100 (by norm_num)⟩

/-! ## Claim C8 -/

/-- **C8.**  `solve_portfolio_weights` with `C = [[1,0],[1,1]]` and
`Y = [1,2]` returns exactly `w = [1,1]` (the normal equations are
nonsingular, so the direct solve is used), with zero residual `C·w − Y`,
MSE 0 and R² 1. -/
theorem c8_portfolio_weights_example :
    solvePortfolioWeights [[1, 0], [1, 1]] [1, 2] = some [1, 1] ∧
    residualsQ [[1, 0], [1, 1]] [1, 2] [1, 1] = [0, 0] ∧
    mseQ (residualsQ [[1, 0], [1, 1]] [1, 2] [1, 1]) = 0 ∧
    rSquaredQ [1, 2] (residualsQ [[1, 0], [1, 1]] [1, 2] [1, 1]) = 1 := by
  refine ⟨?_, ?_, ?_, ?_⟩ <;> with_unfolding_all rfl

/-! ## Claim C9 -/

/-- **C9.**  Whenever `create_unified_timeline` (with `drop_zeros = True`)
returns a matrix — i.e. at least one date survived the
strictly-after-settlement filter — no returned row has every column
(including the target column, which is the head of each row) exactly
zero. -/
theorem c9_unified_timeline_no_zero_rows (cfTarget : List (Date × ℚ))
    (cfMat : List (Date × List ℚ)) (ncols : Nat) (settlement : Option Date)
    (rows : List (Date × List ℚ))
    (hok : createUnifiedTimeline cfTarget cfMat ncols settlement true = .ok rows) :
    ∀ r ∈ rows, ∃ x ∈ r.2, x ≠ 0 := by
  cases settlement <;>
  unfold createUnifiedTimeline at hok <;>
  dsimp only at hok <;>
  · split at hok
    · exact absurd hok (by simp)
    · simp only [eq_self_iff_true, if_true, pure, Except.pure,
        Except.ok.injEq] at hok
      subst hok
      intro r hr
      have hfil := List.of_mem_filter hr
      rcases List.any_eq_true.mp hfil with ⟨x, hx, hxne⟩
      refine ⟨x, hx, ?_⟩
      simpa using hxne

/-- Witness for C9 at a concrete input: target `{2021-01-01 ↦ 5}`, one
bond column that is zero on that date, settlement 2020-01-01. -/
theorem c9_unified_timeline_no_zero_rows_witness :
    ∃ x ∈ ((⟨2021, 1, 1⟩, [5, 0]) : Date × List ℚ).2, x ≠ 0 :=
  c9_unified_timeline_no_zero_rows [(⟨2021, 1, 1⟩, 5)] [(⟨2021, 1, 1⟩, [0])]
    1 (some ⟨2020, 1, 1⟩) [(⟨2021, 1, 1⟩, [5, 0])]
    (by with_unfolding_all rfl) (⟨2021, 1, 1⟩, [5, 0]) (by simp)

/-! ## Claim C5 -/


/-- The assertion-and-build stage, inverted: a successful
`finishSchedule` certifies the boundary-list properties. -/
theorem finishSchedule_ok_inversion (m : CashflowModel) (months : Nat)
    (q0 : List Date) (rows : List CashflowRow) (hch : q0.Chain' (· < ·))
    (hok : m.finishSchedule months q0 = .ok rows) :
    ∃ q : List Date, q.Chain' (· < ·) ∧ 2 ≤ q.length ∧
      q.getLast? = some m.maturity_date ∧
      rows = m.buildRows months 1 (q.zip q.tail) := by
  unfold CashflowModel.finishSchedule at hok
  by_cases h1 : q0.length < 2
  · rw [if_pos h1] at hok
    exact Except.noConfusion hok
  · rw [if_neg h1] at hok
    by_cases h2 : q0.getLast? ≠ some m.maturity_date
    · rw [if_pos h2] at hok
      exact Except.noConfusion hok
    · rw [if_neg h2] at hok
      exact ⟨q0, hch, by omega, not_ne_iff.mp h2, (Except.ok.inj hok).symm⟩

/-- `generateWithFirst` inverted. -/
theorem generateWithFirst_ok_inversion (m : CashflowModel) (months : Nat)
    (withLast : List Date) (firstEndEff : Option Date)
    (rows : List CashflowRow)
    (hok : m.generateWithFirst months withLast firstEndEff = .ok rows) :
    ∃ q : List Date, q.Chain' (· < ·) ∧ 2 ≤ q.length ∧
      q.getLast? = some m.maturity_date ∧
      rows = m.buildRows months 1 (q.zip q.tail) := by
  cases firstEndEff with
  | none =>
    exact finishSchedule_ok_inversion m months _ rows (chain'_sortDedup _) hok
  | some fe =>
    unfold CashflowModel.generateWithFirst at hok
    dsimp only at hok
    by_cases hb : m.issue_date < fe ∧ fe ≤ m.maturity_date
    · rw [if_pos hb] at hok
      exact finishSchedule_ok_inversion m months _ rows
        ((chain'_sortDedup _).sublist (List.filter_sublist _)) hok
    · rw [if_neg hb] at hok
      exact Except.noConfusion hok

/-- `generateFrom` inverted. -/
theorem generateFrom_ok_inversion (m : CashflowModel) (months : Nat)
    (withLast : List Date) (rows : List CashflowRow)
    (hok : m.generateFrom months withLast = .ok rows) :
    ∃ q : List Date, q.Chain' (· < ·) ∧ 2 ≤ q.length ∧
      q.getLast? = some m.maturity_date ∧
      rows = m.buildRows months 1 (q.zip q.tail) := by
  unfold CashflowModel.generateFrom at hok
  by_cases hlf : m.first_coupon_length = some "Long First"
  · rw [if_pos hlf] at hok
    cases hfcd : m.first_coupon_date with
    | some fcd =>
      rw [hfcd] at hok
      exact generateWithFirst_ok_inversion m months withLast _ rows hok
    | none =>
      rw [hfcd] at hok
      cases hmin : ((withLast.filter
          (fun d => decide (m.issue_date < d))).min?) with
      | some firstNominal =>
        rw [hmin] at hok
        exact generateWithFirst_ok_inversion m months withLast _ rows hok
      | none =>
        rw [hmin] at hok
        exact Except.noConfusion hok
  · rw [if_neg hlf] at hok
    exact generateWithFirst_ok_inversion m months withLast _ rows hok

/-- Inversion of `generate_cashflow_schedule`: whatever the stub hints
were, a successful run produced its rows from a strictly increasing
boundary list of length ≥ 2 whose last element is the maturity date. -/
theorem generate_ok_inversion (m : CashflowModel) (rows : List CashflowRow)
    (hok : m.generateCashflowSchedule = .ok rows) :
    ∃ q : List Date, q.Chain' (· < ·) ∧ 2 ≤ q.length ∧
      q.getLast? = some m.maturity_date ∧
      rows = m.buildRows m.monthsPerPeriod 1 (q.zip q.tail) := by
  unfold CashflowModel.generateCashflowSchedule at hok
  cases hlcd : m.last_coupon_date with
  | some lcd =>
    rw [hlcd] at hok
    dsimp only at hok
    by_cases hb : m.issue_date < lcd ∧ lcd < m.maturity_date
    · rw [if_pos hb] at hok
      exact generateFrom_ok_inversion m _ _ rows hok
    · rw [if_neg hb] at hok
      exact Except.noConfusion hok
  | none =>
    rw [hlcd] at hok
    exact generateFrom_ok_inversion m _ _ rows hok

/-- In a strictly increasing list, every consecutive pair is strictly
increasing. -/
theorem chain'_pairs_lt {q : List Date} (h : q.Chain' (· < ·)) :
    ∀ p ∈ q.zip q.tail, p.1 < p.2 := by
  induction q with
  | nil => simp
  | cons a t ih =>
    cases t with
    | nil => simp
    | cons b t' =>
      intro p hp
      rcases List.mem_cons.mp hp with rfl | hp'
      · exact (List.chain'_cons.mp h).1
      · exact ih (List.chain'_cons.mp h).2 p hp'

/-- Over non-degenerate pairs no row is skipped, and each row's
`period_end` is the pair's second component. -/
theorem buildRows_map_period_end (m : CashflowModel) (months : Nat) :
    ∀ (pairs : List (Date × Date)) (i : Nat),
      (∀ p ∈ pairs, p.1 < p.2) →
      (m.buildRows months i pairs).map CashflowRow.period_end =
        pairs.map Prod.snd := by
  intro pairs
  induction pairs with
  | nil => intros; rfl
  | cons p rest ih =>
    intro i hall
    obtain ⟨ps, pe⟩ := p
    rw [CashflowModel.buildRows_cons,
      if_neg (not_le.mpr (hall (ps, pe) (by simp)))]
    simp only [List.map_cons]
    rw [ih (i + 1) (fun p hp => hall p (by simp [hp]))]
    rfl

/-- Every produced row's principal is the notional exactly on the
maturity row and zero elsewhere. -/
theorem buildRows_principal (m : CashflowModel) (months : Nat) :
    ∀ (pairs : List (Date × Date)) (i : Nat) (r : CashflowRow),
      r ∈ m.buildRows months i pairs →
      r.principal = if r.period_end = m.maturity_date then m.notional else 0 := by
  intro pairs
  induction pairs with
  | nil => intro i r hr; simp [CashflowModel.buildRows] at hr
  | cons p rest ih =>
    intro i r hr
    obtain ⟨ps, pe⟩ := p
    rw [CashflowModel.buildRows_cons] at hr
    by_cases hskip : pe ≤ ps
    · rw [if_pos hskip] at hr
      exact ih (i + 1) r hr
    · rw [if_neg hskip] at hr
      rcases List.mem_cons.mp hr with rfl | hr'
      · rfl
      · exact ih (i + 1) r hr'

/-- **C5 (amended).**  For every model accepted by the constructor for
which `generate_cashflow_schedule` returns a schedule (rather than
raising), the schedule has at least one row, strictly increasing
`period_end`s whose last value is the maturity date, and principal equal
to the notional exactly on rows whose `period_end` is the maturity date
and zero on every other row. -/
theorem c5_amended_schedule_invariants (issue mat : Date) (c n : ℚ)
    (freq : Nat) (u : RateUnit) (cal : Option BusinessDayCalendar)
    (conv : String) (fcl : Option String) (fcd lcd : Option Date)
    (m : CashflowModel) (rows : List CashflowRow)
    (hmk : mkCashflowModel issue mat c freq u n cal conv fcl fcd lcd = .ok m)
    (hok : m.generateCashflowSchedule = .ok rows) :
    rows ≠ [] ∧
    (rows.map CashflowRow.period_end).Chain' (· < ·) ∧
    (rows.map CashflowRow.period_end).getLast? = some m.maturity_date ∧
    ∀ r ∈ rows, r.principal =
      if r.period_end = m.maturity_date then m.notional else 0 := by
  obtain ⟨q, hch, hlen, hlast, hrows⟩ := generate_ok_inversion m rows hok
  have hpairs : ∀ p ∈ q.zip q.tail, p.1 < p.2 := chain'_pairs_lt hch
  have hmap : (rows.map CashflowRow.period_end) = (q.zip q.tail).map Prod.snd := by
    rw [hrows]
    exact buildRows_map_period_end m _ _ 1 hpairs
  have htail : (q.zip q.tail).map Prod.snd = q.tail := by
    apply List.map_snd_zip
    exact (List.length_tail q) ▸ Nat.sub_le _ _
  refine ⟨?_, ?_, ?_, ?_⟩
  · intro hnil
    have : (rows.map CashflowRow.period_end).length = q.tail.length := by
      rw [hmap, htail]
    rw [hnil] at this
    simp only [List.map_nil, List.length_nil, List.length_tail] at this
    omega
  · rw [hmap, htail]
    exact hch.tail
  · rw [hmap, htail]
    cases q with
    | nil => simp at hlen
    | cons a t =>
      cases t with
      | nil => simp at hlen
      | cons b t' =>
        rw [show (a :: b :: t').tail = b :: t' from rfl, ← hlast]
        exact List.getLast?_cons_cons.symm
  · intro r hr
    rw [hrows] at hr
    exact buildRows_principal m _ _ 1 r hr

/-- The degenerate model the constructor accepts although its issue and
maturity dates coincide. -/
def degenerateModel : CashflowModel :=
  { couponRate := 1 / 20
    issue_date := ⟨2020, 1, 1⟩
    maturity_date := ⟨2020, 1, 1⟩
    frequency := 2
    notional := 100
    calendar := none
    convention := "mf"
    first_coupon_length := none
    first_coupon_date := none
    last_coupon_date := none }

/-- **C5 (counterexample).**  The constructor accepts issue = maturity =
2020-01-01 (coupon 5, frequency 2), but `generate_cashflow_schedule` then
fails its "at least a start and an end date" assertion instead of
returning a schedule with at least one row — so the claim quantified over
*every* constructor-accepted model is false. -/
theorem c5_counterexample_degenerate_dates :
    mkCashflowModel ⟨2020, 1, 1⟩ ⟨2020, 1, 1⟩ 5 2 = .ok degenerateModel ∧
    degenerateModel.generateCashflowSchedule =
      .error "Schedule needs at least a start and an end date." := by
  constructor
  · with_unfolding_all rfl
  · with_unfolding_all rfl


/-- The single row of `oneYearModel`'s schedule. -/
def oneYearRow : CashflowRow :=
  { period_start := ⟨2020, 1, 1⟩
    period_end := ⟨2021, 1, 1⟩
    quasi_date := ⟨2021, 1, 1⟩
    adjusted_date := ⟨2021, 1, 1⟩
    is_stub := false
    accrual_factor := 1
    coupon_amount := 5
    principal := 100
    note := none }

/-- Witness for the amended C5 on the concrete one-period bond. -/
theorem c5_amended_witness :
    [oneYearRow] ≠ [] ∧
    (([oneYearRow]).map CashflowRow.period_end).Chain' (· < ·) ∧
    (([oneYearRow]).map CashflowRow.period_end).getLast? =
      some oneYearModel.maturity_date ∧
    ∀ r ∈ [oneYearRow], r.principal =
      if r.period_end = oneYearModel.maturity_date then
        oneYearModel.notional else 0 :=
  c5_amended_schedule_invariants ⟨2020, 1, 1⟩ ⟨2021, 1, 1⟩ 5 100 1 .auto
    none "mf" none none none oneYearModel [oneYearRow]
    (by with_unfolding_all rfl) (by with_unfolding_all rfl)

/-! ## Claim C3 -/

/-- Placeholder row used only as the default of `List.getD` in sum
formulas (never actually selected at in-range indices). -/
def dummyRow : CashflowRow :=
  { period_start := ⟨1970, 1, 1⟩
    period_end := ⟨1970, 1, 1⟩
    quasi_date := ⟨1970, 1, 1⟩
    adjusted_date := ⟨1970, 1, 1⟩
    is_stub := false
    accrual_factor := 0
    coupon_amount := 0
    principal := 0
    note := none }

/-- The ex-dividend gate condition of the spec: settlement is on/after
the row's ex-div date and before its `period_end`. -/
def CashflowModel.exDivGateOn (m : CashflowModel) (settlement : Date)
    (e : Int) (r : CashflowRow) : Prop :=
  m.exDivDate r.adjusted_date e ≤ settlement ∧ settlement < r.period_end

instance (m : CashflowModel) (settlement : Date) (e : Int) (r : CashflowRow) :
    Decidable (m.exDivGateOn settlement e r) := by
  unfold CashflowModel.exDivGateOn
  infer_instance

/-- The discounting loop is the 1-indexed sum of
`cashflow × pw(1 + y/f, -(n - s))`. -/
theorem pvLoop_eq_sum (pw : ℚ → ℚ → ℚ) (op s : ℚ) :
    ∀ (rows : List CashflowRow) (n : Nat),
      CashflowModel.pvLoop pw op s n rows =
        Finset.sum (Finset.range rows.length) (fun i =>
          ((rows.getD i dummyRow).coupon_amount +
            (rows.getD i dummyRow).principal) *
            pw op (-(((n : ℚ) + (i : ℚ)) - s))) := by
  intro rows
  induction rows with
  | nil =>
    intro n
    simp [CashflowModel.pvLoop]
  | cons r rest ih =>
    intro n
    rw [show CashflowModel.pvLoop pw op s n (r :: rest) =
      (r.coupon_amount + r.principal) * pw op (-((n : ℚ) - s)) +
        CashflowModel.pvLoop pw op s (n + 1) rest from rfl]
    rw [ih (n + 1), List.length_cons, Finset.sum_range_succ']
    rw [add_comm ((r.coupon_amount + r.principal) * pw op (-((n : ℚ) - s)))]
    congr 1
    · apply Finset.sum_congr rfl
      intro i _
      rw [show ((r :: rest).getD (i + 1) dummyRow) =
        rest.getD i dummyRow from rfl]
      congr 2
      push_cast
      ring
    · rw [show ((r :: rest).getD 0 dummyRow) = r from rfl]
      congr 2
      push_cast
      ring

/-- Outside the ex-div window, `_pv_dirty_from_yield` does equal the
spec's discount sum: cashflows kept as generated, the `n`-th future
row (0-indexed) discounted by `pw(1 + y/f, -((n+1) - s))`. -/
theorem pvDirty_ungated_formula (pw : ℚ → ℚ → ℚ)
    (m : CashflowModel) (y : ℚ) (settlement : Date) (e : Int)
    (schedule future : List CashflowRow)
    (hgen : m.generateCashflowSchedule = .ok schedule)
    (hfut : future = schedule.filter (fun r => decide (settlement < r.period_end)))
    (hne : future ≠ [])
    (hgate : ¬ m.exDivGateOn settlement e (future.getD 0 dummyRow))
    (hone : 0 < 1 + y / (m.frequency : ℚ)) :
    m.pvDirtyFromYield pw y settlement e = .ok
      (Finset.sum (Finset.range future.length) (fun n =>
        ((future.getD n dummyRow).coupon_amount +
         (future.getD n dummyRow).principal) *
        pw (1 + y / (m.frequency : ℚ))
          (-(((n : ℚ) + 1) - m.elapsedFraction schedule settlement)))) := by
  cases future with
  | nil => exact absurd rfl hne
  | cons f0 frest =>
  unfold CashflowModel.pvDirtyFromYield
  rw [hgen]
  show (if (schedule.filter (fun r => decide (settlement < r.period_end))).isEmpty
      then pure 0
      else
        (m.gateFutureRows settlement e
          (schedule.filter (fun r => decide (settlement < r.period_end)))).bind
          (fun futureRows =>
            if 1 + y / (m.frequency : ℚ) ≤ 0 then
              (Except.error
                "Yield too low for nominal compounding at this frequency." :
                Except String ℚ)
            else
              pure (CashflowModel.pvLoop pw (1 + y / (m.frequency : ℚ))
                (m.elapsedFraction schedule settlement) 1 futureRows))) = _
  rw [← hfut]
  rw [show (f0 :: frest).isEmpty = false from rfl]
  rw [if_neg (by simp)]
  rw [show m.gateFutureRows settlement e (f0 :: frest) =
    (if m.exDivDate f0.adjusted_date e ≤ settlement ∧
        settlement < f0.period_end then
      (.error "AttributeError: CashflowRow object has no attribute __dict__" :
        Except String (List CashflowRow))
    else .ok (f0 :: frest)) from rfl]
  rw [if_neg (by exact hgate)]
  show (if 1 + y / (m.frequency : ℚ) ≤ 0 then
      (Except.error "Yield too low for nominal compounding at this frequency." :
        Except String ℚ)
    else
      pure (CashflowModel.pvLoop pw (1 + y / (m.frequency : ℚ))
        (m.elapsedFraction schedule settlement) 1 (f0 :: frest))) = _
  rw [if_neg (not_le.mpr hone)]
  show Except.ok _ = Except.ok _
  congr 1
  rw [pvLoop_eq_sum]
  apply Finset.sum_congr (by rfl)
  intro i _
  cases i with
  | zero =>
    show (f0.coupon_amount + f0.principal) * _ =
      (f0.coupon_amount + f0.principal) * _
    congr 2
    norm_num
  | succ i' =>
    show ((frest.getD i' dummyRow).coupon_amount +
      (frest.getD i' dummyRow).principal) * _ =
      ((frest.getD i' dummyRow).coupon_amount +
        (frest.getD i' dummyRow).principal) * _
    congr 2
    push_cast
    ring

/-- Inside the ex-div window, `_pv_dirty_from_yield` raises
`AttributeError` (the gate rebuilds the first future row from
`first.__dict__`, which a `slots=True` dataclass does not have) — for
every yield, before the compounding-factor check is even reached. -/
theorem pvDirty_gated_attribute_error (pw : ℚ → ℚ → ℚ)
    (m : CashflowModel) (y : ℚ) (settlement : Date) (e : Int)
    (schedule : List CashflowRow) (f0 : CashflowRow) (frest : List CashflowRow)
    (hgen : m.generateCashflowSchedule = .ok schedule)
    (hfut : schedule.filter (fun r => decide (settlement < r.period_end)) =
      f0 :: frest)
    (hgate : m.exDivGateOn settlement e f0) :
    m.pvDirtyFromYield pw y settlement e =
      .error "AttributeError: CashflowRow object has no attribute __dict__" := by
  unfold CashflowModel.pvDirtyFromYield
  rw [hgen]
  show (if (schedule.filter (fun r => decide (settlement < r.period_end))).isEmpty
      then pure 0
      else
        (m.gateFutureRows settlement e
          (schedule.filter (fun r => decide (settlement < r.period_end)))).bind
          (fun futureRows =>
            if 1 + y / (m.frequency : ℚ) ≤ 0 then
              (Except.error
                "Yield too low for nominal compounding at this frequency." :
                Except String ℚ)
            else
              pure (CashflowModel.pvLoop pw (1 + y / (m.frequency : ℚ))
                (m.elapsedFraction schedule settlement) 1 futureRows))) = _
  rw [hfut]
  rw [show (f0 :: frest).isEmpty = false from rfl]
  rw [if_neg (by simp)]
  rw [show m.gateFutureRows settlement e (f0 :: frest) =
    (if m.exDivDate f0.adjusted_date e ≤ settlement ∧
        settlement < f0.period_end then
      (.error "AttributeError: CashflowRow object has no attribute __dict__" :
        Except String (List CashflowRow))
    else .ok (f0 :: frest)) from rfl]
  rw [if_pos (show m.exDivDate f0.adjusted_date e ≤ settlement ∧
    settlement < f0.period_end from hgate)]
  rfl

/-- **C3 (code evaluation).**  On the one-period bond with settlement
2020-12-30 inside the ex-div window (`ex_div_date` 2020-12-25 ≤
settlement < `period_end` 2021-01-01), `_pv_dirty_from_yield` raises
`AttributeError` — the gate rebuilds the first row from
`first.__dict__`, which the `slots=True` dataclass `CashflowRow` lacks —
instead of returning the claim's coupon-zeroed discount sum, which
evaluates to 100 here (`s = 1`, one future row of bare principal).
Outside the window (settlement 2020-06-01) the code and the claim's
formula agree at 105. -/
theorem c3_gated_pv_attribute_error_eval :
    oneYearModel.exDivGateOn ⟨2020, 12, 30⟩ 7 oneYearRow ∧
    oneYearModel.pvDirtyFromYield powInt (3 / 100) ⟨2020, 12, 30⟩ 7 =
      .error "AttributeError: CashflowRow object has no attribute __dict__" ∧
    Finset.sum (Finset.range ([oneYearRow].length)) (fun n =>
      ((if n = 0 ∧ oneYearModel.exDivGateOn ⟨2020, 12, 30⟩ 7
          ([oneYearRow].getD 0 dummyRow)
        then 0 else ([oneYearRow].getD n dummyRow).coupon_amount) +
       ([oneYearRow].getD n dummyRow).principal) *
      powInt (1 + 3 / 100 / (oneYearModel.frequency : ℚ))
        (-(((n : ℚ) + 1) -
          oneYearModel.elapsedFraction [oneYearRow] ⟨2020, 12, 30⟩))) = 100 ∧
    (Except.error "AttributeError: CashflowRow object has no attribute __dict__" :
      Except String ℚ) ≠ .ok 100 ∧
    oneYearModel.pvDirtyFromYield powInt (3 / 100) ⟨2020, 6, 1⟩ 7 = .ok 105 ∧
    Finset.sum (Finset.range ([oneYearRow].length)) (fun n =>
      ((if n = 0 ∧ oneYearModel.exDivGateOn ⟨2020, 6, 1⟩ 7
          ([oneYearRow].getD 0 dummyRow)
        then 0 else ([oneYearRow].getD n dummyRow).coupon_amount) +
       ([oneYearRow].getD n dummyRow).principal) *
      powInt (1 + 3 / 100 / (oneYearModel.frequency : ℚ))
        (-(((n : ℚ) + 1) -
          oneYearModel.elapsedFraction [oneYearRow] ⟨2020, 6, 1⟩))) = 105 := by
  refine ⟨?_, ?_, ?_, fun h => Except.noConfusion h, ?_, ?_⟩
  · with_unfolding_all decide
  · with_unfolding_all rfl
  · with_unfolding_all rfl
  · with_unfolding_all rfl
  · with_unfolding_all rfl

/-! ## Claim C2 -/

/-- **C2 (counterexample).**  On the stub-free one-period bond
(settlement 2019-07-01, before maturity; `y = 3 %` well inside the
admissible range), the round trip
`yield_from_clean_price(clean_price_from_yield(3 %))` with the default
`tol = 1e-9` and `max_iter = 8` returns `1537/51200 ≈ 3.0020 %` — the
midpoint of the 8-times-bisected grid bracket `[0.02, 0.05]` — which is
about `2·10⁻⁵` away from `y`, far more than `tol`. -/
theorem c2_counterexample_roundtrip_misses_tol :
    oneYearModel.cleanPriceFromYield powInt (3 / 100) ⟨2019, 7, 1⟩ 7 =
      .ok (10500 / 103) ∧
    oneYearModel.yieldFromCleanPrice powInt (10500 / 103) ⟨2019, 7, 1⟩ 7
      none (1 / 10 ^ 9) 8 none = .ok (1537 / 51200) ∧
    |(1537 : ℚ) / 51200 - 3 / 100| > 1 / 10 ^ 9 := by
  refine ⟨?_, ?_, by norm_num [abs]⟩ <;> with_unfolding_all rfl

/-- `x ∈ [lo, hi]` keeps `f x` evaluable, `g` strictly antitone there,
`g y = 0` with `y ∈ [lo, hi]`: then bisection stays inside `[lo, hi]`,
whatever `tol` and however few iterations. -/
theorem bisect_stays_in_bracket (f : ℚ → Except String ℚ) (g : ℚ → ℚ)
    (tol y : ℚ) (hgy : g y = 0) :
    ∀ (iter : Nat) (lo hi : ℚ),
      (∀ x, lo ≤ x → x ≤ hi → f x = .ok (g x)) →
      (∀ x1 x2, lo ≤ x1 → x1 < x2 → x2 ≤ hi → g x2 < g x1) →
      lo ≤ y → y ≤ hi →
      ∃ r, CashflowModel.bisect f tol iter lo hi (g lo) (g hi) = .ok r ∧
        lo ≤ r ∧ r ≤ hi := by
  intro iter
  induction iter with
  | zero =>
    intro lo hi hf hanti hloy hyhi
    exact ⟨(1 : ℚ) / 2 * (lo + hi), rfl, by linarith, by linarith⟩
  | succ it ih =>
    intro lo hi hf hanti hloy hyhi
    have hlohi : lo ≤ hi := le_trans hloy hyhi
    have hmid_lo : lo ≤ (1 : ℚ) / 2 * (lo + hi) := by linarith
    have hmid_hi : (1 : ℚ) / 2 * (lo + hi) ≤ hi := by linarith
    have hfmid := hf ((1 : ℚ) / 2 * (lo + hi)) hmid_lo hmid_hi
    rw [show CashflowModel.bisect f tol (it + 1) lo hi (g lo) (g hi) =
      (do
        let fm ← f ((1 : ℚ) / 2 * (lo + hi))
        if |fm| < tol then pure ((1 : ℚ) / 2 * (lo + hi))
        else if g lo * fm ≤ 0 then
          CashflowModel.bisect f tol it lo ((1 : ℚ) / 2 * (lo + hi)) (g lo) fm
        else
          CashflowModel.bisect f tol it ((1 : ℚ) / 2 * (lo + hi)) hi fm (g hi))
      from rfl, hfmid]
    show ∃ r, (if |g ((1 : ℚ) / 2 * (lo + hi))| < tol then
        (pure ((1 : ℚ) / 2 * (lo + hi)) : Except String ℚ)
      else if g lo * g ((1 : ℚ) / 2 * (lo + hi)) ≤ 0 then
        CashflowModel.bisect f tol it lo ((1 : ℚ) / 2 * (lo + hi)) (g lo)
          (g ((1 : ℚ) / 2 * (lo + hi)))
      else
        CashflowModel.bisect f tol it ((1 : ℚ) / 2 * (lo + hi)) hi
          (g ((1 : ℚ) / 2 * (lo + hi))) (g hi)) = .ok r ∧ lo ≤ r ∧ r ≤ hi
    set mid := (1 : ℚ) / 2 * (lo + hi) with hmid
    by_cases htol : |g mid| < tol
    · rw [if_pos htol]
      exact ⟨mid, rfl, hmid_lo, hmid_hi⟩
    · rw [if_neg htol]
      by_cases hsign : g lo * g mid ≤ 0
      · rw [if_pos hsign]
        have hymid : y ≤ mid := by
          by_cases hgm : g mid ≤ 0
          · by_contra hc
            push_neg at hc
            have := hanti mid y hmid_lo hc hyhi
            rw [hgy] at this
            linarith
          · push_neg at hgm
            have hglo : g lo ≤ 0 := by nlinarith
            have hyle : y ≤ lo := by
              by_contra hc
              push_neg at hc
              have := hanti lo y le_rfl hc hyhi
              rw [hgy] at this
              linarith
            linarith
        obtain ⟨r, hr, hr1, hr2⟩ := ih lo mid
          (fun x hx1 hx2 => hf x hx1 (le_trans hx2 hmid_hi))
          (fun x1 x2 h1 h2 h3 => hanti x1 x2 h1 h2 (le_trans h3 hmid_hi))
          hloy hymid
        exact ⟨r, hr, hr1, le_trans hr2 hmid_hi⟩
      · rw [if_neg hsign]
        push_neg at hsign
        have hglo : 0 < g lo := by
          rcases lt_trichotomy (g lo) 0 with h | h | h
          · exfalso
            have hyne : ¬ lo < y := by
              intro hc
              have := hanti lo y le_rfl hc hyhi
              rw [hgy] at this
              linarith
            have : y = lo := le_antisymm (not_lt.mp hyne) hloy
            rw [← this, hgy] at h
            linarith
          · rw [h] at hsign
            simp at hsign
          · exact h
        have hgmid : 0 < g mid := by nlinarith
        have hmidy : mid ≤ y := by
          by_contra hc
          push_neg at hc
          rcases lt_or_eq_of_le (le_of_lt hc) with h | h
          · have := hanti y mid hloy h hmid_hi
            rw [hgy] at this
            linarith
          · rw [← h, hgy] at hgmid
            linarith
        obtain ⟨r, hr, hr1, hr2⟩ := ih mid hi
          (fun x hx1 hx2 => hf x (le_trans hmid_lo hx1) hx2)
          (fun x1 x2 h1 h2 h3 => hanti x1 x2 (le_trans hmid_lo h1) h2 h3)
          hmidy hyhi
        exact ⟨r, hr, le_trans hmid_lo hr1, hr2⟩

/-- The head of a strictly increasing list is at most its last element. -/
theorem chain'_head_le_getLastD {a : ℚ} {l : List ℚ}
    (h : (a :: l).Chain' (· < ·)) : a ≤ l.getLastD a := by
  induction l generalizing a with
  | nil => exact le_refl a
  | cons b t ih =>
    have hab : a < b := (List.chain'_cons.mp h).1
    have hbt : (b :: t).Chain' (· < ·) := (List.chain'_cons.mp h).2
    rw [List.getLastD_cons]
    calc a ≤ b := le_of_lt hab
    _ ≤ t.getLastD b := ih hbt

/-- The grid scan, started with a remembered anchor strictly left of the
root `y` and ending at or beyond `y`, returns a value within `B` of `y`
whenever `B` bounds every adjacent anchor gap. -/
theorem gridScan_close_to_root (f : ℚ → Except String ℚ) (g : ℚ → ℚ)
    (tol : ℚ) (maxIter : Nat) (y B : ℚ) (hgy : g y = 0) (hB : 0 ≤ B) :
    ∀ (anchors : List ℚ) (lastY : ℚ),
      (lastY :: anchors).Chain' (· < ·) →
      (∀ x, lastY ≤ x → x ≤ anchors.getLastD lastY → f x = .ok (g x)) →
      (∀ x1 x2, lastY ≤ x1 → x1 < x2 → x2 ≤ anchors.getLastD lastY →
        g x2 < g x1) →
      (∀ p ∈ zipConsec (lastY :: anchors), p.2 - p.1 ≤ B) →
      lastY < y → y ≤ anchors.getLastD lastY →
      ∃ r, CashflowModel.gridScan f tol maxIter (some (lastY, g lastY))
        anchors = .ok r ∧ |r - y| ≤ B := by
  intro anchors
  induction anchors with
  | nil =>
    intro lastY _ _ _ _ hly hytop
    exact absurd (lt_of_lt_of_le hly hytop) (lt_irrefl lastY)
  | cons a rest ih =>
    intro lastY hchain hf hanti hgaps hly hytop
    have hla : lastY < a := (List.chain'_cons.mp hchain).1
    have harest : (a :: rest).Chain' (· < ·) := (List.chain'_cons.mp hchain).2
    have htop_eq : (a :: rest).getLastD lastY = rest.getLastD a := by
      cases rest <;> rfl
    rw [htop_eq] at hf hanti hytop
    have ha_top : a ≤ rest.getLastD a := chain'_head_le_getLastD harest
    have hfa : f a = .ok (g a) := hf a (le_of_lt hla) ha_top
    have hgl : 0 < g lastY := by
      have := hanti lastY y le_rfl hly hytop
      rw [hgy] at this
      exact this
    rw [show CashflowModel.gridScan f tol maxIter (some (lastY, g lastY))
        (a :: rest) =
      (match f a with
      | .error _ =>
        CashflowModel.gridScan f tol maxIter (some (lastY, g lastY)) rest
      | .ok fy =>
        if fy = 0 then pure a
        else
          if fy * g lastY < 0 then
            CashflowModel.bisect f tol maxIter (min lastY a) (max lastY a)
              (if min lastY a = lastY then g lastY else fy)
              (if min lastY a = lastY then fy else g lastY)
          else
            CashflowModel.gridScan f tol maxIter (some (a, fy)) rest)
      from rfl, hfa]
    show ∃ r, (if g a = 0 then (pure a : Except String ℚ)
      else
        if g a * g lastY < 0 then
          CashflowModel.bisect f tol maxIter (min lastY a) (max lastY a)
            (if min lastY a = lastY then g lastY else g a)
            (if min lastY a = lastY then g a else g lastY)
        else
          CashflowModel.gridScan f tol maxIter (some (a, g a)) rest) = .ok r ∧
      |r - y| ≤ B
    by_cases hga0 : g a = 0
    · rw [if_pos hga0]
      have hay : a = y := by
        rcases lt_trichotomy a y with h | h | h
        · have := hanti a y (le_of_lt hla) h hytop
          rw [hgy, hga0] at this
          exact absurd this (lt_irrefl 0)
        · exact h
        · have := hanti y a (le_of_lt hly) h ha_top
          rw [hgy, hga0] at this
          exact absurd this (lt_irrefl 0)
      refine ⟨a, rfl, ?_⟩
      rw [hay]
      simpa using hB
    · rw [if_neg hga0]
      by_cases hsign : g a < 0
      · have hprod : g a * g lastY < 0 := mul_neg_of_neg_of_pos hsign hgl
        rw [if_pos hprod, min_eq_left (le_of_lt hla),
          max_eq_right (le_of_lt hla), if_pos rfl, if_pos rfl]
        have hya : y < a := by
          by_contra hc
          push_neg at hc
          rcases lt_or_eq_of_le hc with h | h
          · have := hanti a y (le_of_lt hla) h hytop
            rw [hgy] at this
            linarith
          · rw [← h] at hgy
            rw [hgy] at hsign
            exact absurd hsign (lt_irrefl 0)
        obtain ⟨r, hr, hr1, hr2⟩ := bisect_stays_in_bracket f g tol y hgy
          maxIter lastY a
          (fun x hx1 hx2 => hf x hx1 (le_trans hx2 ha_top))
          (fun x1 x2 h1 h2 h3 => hanti x1 x2 h1 h2 (le_trans h3 ha_top))
          (le_of_lt hly) (le_of_lt hya)
        refine ⟨r, hr, ?_⟩
        have hgap : a - lastY ≤ B := hgaps (lastY, a) (by
          rw [zipConsec_cons_cons]
          simp)
        rw [abs_le]
        constructor <;> linarith
      · push_neg at hsign
        have hga_pos : 0 < g a := lt_of_le_of_ne hsign (Ne.symm hga0)
        have hprod : ¬ g a * g lastY < 0 :=
          not_lt.mpr (le_of_lt (mul_pos hga_pos hgl))
        rw [if_neg hprod]
        have hay : a < y := by
          by_contra hc
          push_neg at hc
          rcases lt_or_eq_of_le hc with h | h
          · have := hanti y a (le_of_lt hly) h ha_top
            rw [hgy] at this
            linarith
          · rw [h] at hgy
            rw [hgy] at hga_pos
            exact absurd hga_pos (lt_irrefl 0)
        exact ih a harest
          (fun x hx1 hx2 => hf x (le_trans (le_of_lt hla) hx1) hx2)
          (fun x1 x2 h1 h2 h3 =>
            hanti x1 x2 (le_trans (le_of_lt hla) h1) h2 h3)
          (fun p hp => hgaps p (by
            rw [zipConsec_cons_cons]
            exact List.mem_cons_of_mem _ hp))
          hay hytop

/-- The grid scan started with no remembered anchor: if the root `y` of
`g` lies in the span of the (strictly increasing) anchors, the scan
returns a value within the largest adjacent anchor gap `B` of `y`. -/
theorem gridScan_from_none (f : ℚ → Except String ℚ) (g : ℚ → ℚ)
    (tol : ℚ) (maxIter : Nat) (y B : ℚ) (hgy : g y = 0) (hB : 0 ≤ B)
    (a : ℚ) (rest : List ℚ)
    (hchain : (a :: rest).Chain' (· < ·))
    (hf : ∀ x, a ≤ x → x ≤ rest.getLastD a → f x = .ok (g x))
    (hanti : ∀ x1 x2, a ≤ x1 → x1 < x2 → x2 ≤ rest.getLastD a →
      g x2 < g x1)
    (hgaps : ∀ p ∈ zipConsec (a :: rest), p.2 - p.1 ≤ B)
    (hay : a ≤ y) (hytop : y ≤ rest.getLastD a) :
    ∃ r, CashflowModel.gridScan f tol maxIter none (a :: rest) = .ok r ∧
      |r - y| ≤ B := by
  have ha_top : a ≤ rest.getLastD a := chain'_head_le_getLastD hchain
  have hfa : f a = .ok (g a) := hf a le_rfl ha_top
  rw [show CashflowModel.gridScan f tol maxIter none (a :: rest) =
    (match f a with
    | .error _ => CashflowModel.gridScan f tol maxIter none rest
    | .ok fy =>
      if fy = 0 then pure a
      else CashflowModel.gridScan f tol maxIter (some (a, fy)) rest)
    from rfl, hfa]
  show ∃ r, (if g a = 0 then (pure a : Except String ℚ)
    else CashflowModel.gridScan f tol maxIter (some (a, g a)) rest) =
      .ok r ∧ |r - y| ≤ B
  by_cases hga0 : g a = 0
  · rw [if_pos hga0]
    have hay' : a = y := by
      rcases lt_or_eq_of_le hay with h | h
      · have := hanti a y le_rfl h hytop
        rw [hgy, hga0] at this
        exact absurd this (lt_irrefl 0)
      · exact h
    refine ⟨a, rfl, ?_⟩
    rw [hay']
    simpa using hB
  · rw [if_neg hga0]
    have hlt : a < y := by
      rcases lt_or_eq_of_le hay with h | h
      · exact h
      · rw [← h] at hgy
        exact absurd hgy hga0
    exact gridScan_close_to_root f g tol maxIter y B hgy hB rest a
      hchain hf hanti hgaps hlt hytop

/-- With no user bracket, `yield_from_clean_price` reduces to the anchor
grid scan against `pv(x) − (clean + accrued)`. -/
theorem yieldFromCleanPrice_no_bracket (pw : ℚ → ℚ → ℚ)
    (m : CashflowModel) (clean a tol : ℚ) (settlement : Date)
    (maxIter : Nat) (haccr : m.accruedInterest settlement 7 = .ok a) :
    m.yieldFromCleanPrice pw clean settlement 7 none tol maxIter none =
      CashflowModel.gridScan
        (fun x => (m.pvDirtyFromYield pw x settlement 7).bind
          (fun pv => pure (pv - (clean + a))))
        tol maxIter none (m.anchorGrid m.minYieldFloor none) := by
  unfold CashflowModel.yieldFromCleanPrice
  rw [haccr]
  rfl

/-- The anchor grid is strictly increasing (it is `sorted(set(...))`). -/
theorem anchorGrid_chain (m : CashflowModel) (minY : ℚ) (y0 : Option ℚ) :
    (m.anchorGrid minY y0).Chain' (· < ·) :=
  chain'_sortDedup _

/-- **C2 (amended).**  The round trip
`yield_from_clean_price(clean_price_from_yield(y, settlement),
settlement)` does **not** recover `y` within `tol` (the default
`max_iter = 8` bisection cannot reach `tol = 1e-9`; see the
counterexample).  What holds instead: whenever the dirty price `p` is
strictly decreasing in yield across the anchor grid and the true yield
`y` lies within the grid's span, the round trip succeeds and returns a
yield within the largest adjacent anchor gap of `y`, for every `tol` and
`max_iter`. -/
theorem c2_amended_grid_gap_roundtrip (pw : ℚ → ℚ → ℚ)
    (m : CashflowModel) (settlement : Date) (p : ℚ → ℚ)
    (y a clean tol : ℚ) (maxIter : Nat)
    (haccr : m.accruedInterest settlement 7 = .ok a)
    (hgrid : m.anchorGrid m.minYieldFloor none ≠ [])
    (hp : ∀ x, (m.anchorGrid m.minYieldFloor none).headD 0 ≤ x →
      x ≤ (m.anchorGrid m.minYieldFloor none).getLastD 0 →
      m.pvDirtyFromYield pw x settlement 7 = .ok (p x))
    (hanti : ∀ x1 x2, (m.anchorGrid m.minYieldFloor none).headD 0 ≤ x1 →
      x1 < x2 → x2 ≤ (m.anchorGrid m.minYieldFloor none).getLastD 0 →
      p x2 < p x1)
    (hylo : (m.anchorGrid m.minYieldFloor none).headD 0 ≤ y)
    (hyhi : y ≤ (m.anchorGrid m.minYieldFloor none).getLastD 0)
    (hclean : m.cleanPriceFromYield pw y settlement 7 = .ok clean) :
    ∃ r, m.yieldFromCleanPrice pw clean settlement 7 none tol maxIter none =
      .ok r ∧ |r - y| ≤ maxGapQ (m.anchorGrid m.minYieldFloor none) := by
  rcases hA : m.anchorGrid m.minYieldFloor none with _ | ⟨a0, rest⟩
  · exact absurd hA hgrid
  rw [hA] at hp hanti hylo hyhi
  simp only [List.headD_cons, List.getLastD_cons] at hp hanti hylo hyhi
  have hpy : m.pvDirtyFromYield pw y settlement 7 = .ok (p y) :=
    hp y hylo hyhi
  have hcpv : m.cleanPriceFromYield pw y settlement 7 = .ok (p y - a) := by
    unfold CashflowModel.cleanPriceFromYield CashflowModel.dirtyPriceFromYield
    rw [hpy, haccr]
    rfl
  have hcv : clean = p y - a :=
    (Except.ok.inj (hcpv.symm.trans hclean)).symm
  have hg : p y - (clean + a) = 0 := by rw [hcv]; ring
  have hch : (a0 :: rest).Chain' (· < ·) := by
    have h0 := anchorGrid_chain m m.minYieldFloor none
    rwa [hA] at h0
  obtain ⟨r, hr, hrb⟩ := gridScan_from_none
    (fun x => (m.pvDirtyFromYield pw x settlement 7).bind
      (fun pv => pure (pv - (clean + a))))
    (fun x => p x - (clean + a)) tol maxIter y (maxGapQ (a0 :: rest)) hg
    (maxGapQ_nonneg _) a0 rest hch
    (fun x hx1 hx2 => by
      show (m.pvDirtyFromYield pw x settlement 7).bind
        (fun pv => pure (pv - (clean + a))) = Except.ok (p x - (clean + a))
      rw [hp x hx1 hx2]
      rfl)
    (fun x1 x2 h1 h2 h3 => by
      have := hanti x1 x2 h1 h2 h3
      show p x2 - (clean + a) < p x1 - (clean + a)
      linarith)
    (fun q hq => le_maxGapQ hq)
    hylo hyhi
  refine ⟨r, ?_, ?_⟩
  · rw [yieldFromCleanPrice_no_bracket pw m clean a tol settlement maxIter
      haccr, hA]
    exact hr
  · exact hrb

/-- On `oneYearModel` at settlement 2019-07-01 the dirty pv reduces to a
single discounted cashflow of 105 (one future row, `s = 0`). -/
theorem oneYearModel_pv_shape (x : ℚ) :
    oneYearModel.pvDirtyFromYield powInt x ⟨2019, 7, 1⟩ 7 =
    if 1 + x / ((1 : Nat) : ℚ) ≤ 0 then
      .error "Yield too low for nominal compounding at this frequency."
    else
      pure (CashflowModel.pvLoop powInt (1 + x / ((1 : Nat) : ℚ)) 0 1
        [oneYearRow]) := by
  with_unfolding_all rfl

/-- The smallest anchor of `oneYearModel`'s grid is
`min_y + 1e-9 = -0.99 + 2e-9`. -/
theorem oneYearModel_headD :
    (oneYearModel.anchorGrid oneYearModel.minYieldFloor none).headD 0 =
      -494999999 / 500000000 := by
  with_unfolding_all rfl

/-- Closed form of `oneYearModel`'s dirty pv at settlement 2019-07-01:
`105 / (1 + x)` whenever `1 + x > 0`. -/
theorem oneYearModel_pv_eval (x : ℚ) (hx : 0 < 1 + x) :
    oneYearModel.pvDirtyFromYield powInt x ⟨2019, 7, 1⟩ 7 =
      .ok (105 * (1 + x)⁻¹) := by
  rw [oneYearModel_pv_shape x, if_neg (by
    have h1 : ((1 : Nat) : ℚ) = 1 := Nat.cast_one
    rw [h1, div_one]
    linarith)]
  have h1 : ((1 : Nat) : ℚ) = 1 := Nat.cast_one
  rw [h1, div_one]
  show Except.ok ((oneYearRow.coupon_amount + oneYearRow.principal) *
    powInt (1 + x) (-(((1 : Nat) : ℚ) - 0)) + 0) =
    Except.ok (105 * (1 + x)⁻¹)
  refine congrArg Except.ok ?_
  have h105 : oneYearRow.coupon_amount + oneYearRow.principal = (105 : ℚ) := by
    with_unfolding_all rfl
  have hexp : (-(((1 : Nat) : ℚ) - 0)) = (-1 : ℚ) := by norm_num
  rw [h105, hexp]
  have hpow : powInt (1 + x) (-1 : ℚ) = (1 + x)⁻¹ := by
    show (if ((-1 : ℚ)).den = 1 then (1 + x) ^ ((-1 : ℚ)).num else 0) =
      (1 + x)⁻¹
    rw [if_pos (by with_unfolding_all decide : ((-1 : ℚ)).den = 1),
      (by with_unfolding_all decide : ((-1 : ℚ)).num = -1)]
    exact zpow_neg_one _
  rw [hpow, add_zero]

/-- Witness for the amended C2 on the one-period bond at `y = 3 %`: the
round trip lands within the grid's largest gap of `y` (and indeed, by the
counterexample, at `1537/51200`). -/
theorem c2_amended_witness :
    ∃ r, oneYearModel.yieldFromCleanPrice powInt (10500 / 103) ⟨2019, 7, 1⟩
        7 none (1 / 10 ^ 9) 8 none = .ok r ∧
      |r - 3 / 100| ≤
        maxGapQ (oneYearModel.anchorGrid oneYearModel.minYieldFloor none) :=
  c2_amended_grid_gap_roundtrip powInt oneYearModel ⟨2019, 7, 1⟩
    (fun x => 105 * (1 + x)⁻¹) (3 / 100) 0 (10500 / 103) (1 / 10 ^ 9) 8
    (by with_unfolding_all rfl)
    (by with_unfolding_all decide)
    (fun x hx1 hx2 => by
      rw [oneYearModel_headD] at hx1
      have hm1 : (-1 : ℚ) < -494999999 / 500000000 := by norm_num
      exact oneYearModel_pv_eval x (by linarith))
    (fun x1 x2 h1 h2 h3 => by
      rw [oneYearModel_headD] at h1
      have hm1 : (-1 : ℚ) < -494999999 / 500000000 := by norm_num
      have hp1 : 0 < 1 + x1 := by linarith
      have hp2 : 0 < 1 + x2 := by linarith
      show 105 * (1 + x2)⁻¹ < 105 * (1 + x1)⁻¹
      have hinv : (1 + x2)⁻¹ < (1 + x1)⁻¹ := by
        rw [inv_lt_inv₀ hp2 hp1]
        linarith
      exact mul_lt_mul_of_pos_left hinv (by norm_num))
    (by rw [oneYearModel_headD]; norm_num)
    (by
      have hg : (oneYearModel.anchorGrid oneYearModel.minYieldFloor
          none).getLastD 0 = 10 := by with_unfolding_all rfl
      rw [hg]
      norm_num)
    (by with_unfolding_all rfl)
